import Mathlib

/-!
# Bouncing circles (`lib/canvas.c`)

A shallow embedding of the simulation kernel of `lib/canvas.c`.

* The C globals `color`, `position`, `velocity`, `radius`, `canvasWidth`
  and `canvasHeight` become the fields of `State`; every function of the
  source takes the state and gives the next one.
* `short` and `unsigned char` values are integers; every store into one of
  them goes through `toShort` / `toUChar`, the wrap-around conversions of
  the target.  Intermediate arithmetic is done in `int` in C; with
  operands that are `short`s it cannot leave 32 bits, so it is plain
  integer arithmetic here.
* `rand()` is a stream `rand : Nat → Int` of results together with the
  number of calls made so far.
* `rand() % max` with `max = 0` has no result (division by zero), so
  `getRand` and `initCircles` return an `Option`.
-/

namespace Canvas

/-- Number of circles in the simulation (`#define NUM_CIRCLES 1000`). -/
def NUM_CIRCLES : Nat := 1000

/-- Container for 2D coordinates (`struct Coordinate2D`, two `short`s). -/
structure Coordinate2D where
  x : Int
  y : Int
deriving DecidableEq, Repr, Inhabited

/-- Container for RGB values (`struct ColorRGB`, three `unsigned char`s). -/
structure ColorRGB where
  red : Int
  green : Int
  blue : Int
deriving DecidableEq, Repr, Inhabited

/-- The global arrays and the canvas dimensions. -/
structure State where
  color : List ColorRGB
  position : List Coordinate2D
  velocity : List Coordinate2D
  radius : List Int
  canvasWidth : Int
  canvasHeight : Int
deriving DecidableEq, Repr

/-- Conversion of an `int` to `short`: reduction modulo `2^16` into
`[-32768, 32767]`. -/
def toShort (z : Int) : Int := (z + 32768) % 65536 - 32768

/-- Conversion of an `int` to `unsigned char`: reduction modulo `2^8`. -/
def toUChar (z : Int) : Int := z % 256

/-- The values a `short` can hold. -/
def isShort (z : Int) : Prop := -32768 ≤ z ∧ z ≤ 32767

/-- The values an `unsigned char` can hold. -/
def isUChar (z : Int) : Prop := 0 ≤ z ∧ z ≤ 255

instance (z : Int) : Decidable (isShort z) := by unfold isShort; infer_instance

instance (z : Int) : Decidable (isUChar z) := by unfold isUChar; infer_instance

/-- Get a random value 0 - max-1: `rand() % max`, where `r` is the result
of the call of `rand()`.  C's `%` truncates towards zero; there is no
result for `max = 0`. -/
def getRand (r : Int) (max : Int) : Option Int :=
  if max = 0 then none else some (Int.tmod r max)

/-- One pass of the loop body of `initCircles` for circle `i`: `k` counts
the calls of `rand()` made so far. -/
def initCirclesBody (rand : Nat → Int) (st : State × Nat) (i : Nat) :
    Option (State × Nat) := do
  let (s, k) := st
  let radius_i := toShort (10 + (← getRand (rand k) 40))
  let red := toUChar (← getRand (rand (k + 1)) 256)
  let green := toUChar (← getRand (rand (k + 2)) 256)
  let blue := toUChar (← getRand (rand (k + 3)) 256)
  let position_x :=
    toShort (radius_i + toShort (← getRand (rand (k + 4)) (s.canvasWidth - 2 * radius_i)))
  let position_y :=
    toShort (radius_i + toShort (← getRand (rand (k + 5)) (s.canvasHeight - 2 * radius_i)))
  let velocity_x := toShort (-10 + (← getRand (rand (k + 6)) 20))
  let velocity_y := toShort (-10 + (← getRand (rand (k + 7)) 20))
  pure
    ({ s with
        radius := s.radius.set i radius_i
        color := s.color.set i ⟨red, green, blue⟩
        position := s.position.set i ⟨position_x, position_y⟩
        velocity := s.velocity.set i ⟨velocity_x, velocity_y⟩ },
      k + 8)

/-- Random initialization of circle attributes.  `rand` is the sequence of
results of `rand()` after the `srand(time(NULL))` of the source. -/
def initCircles (rand : Nat → Int) (s : State) (width height : Int) : Option State :=
  let s0 : State := { s with canvasWidth := toShort width, canvasHeight := toShort height }
  ((List.range NUM_CIRCLES).foldlM (initCirclesBody rand) (s0, 0)).map Prod.fst

/-- The loop body of `updateCircles` on the cells of one circle: its
position `p` and velocity `v` are read, updated in the order of the source
and returned; `r` is `radius[i]`. -/
def updateCircle (canvasWidth canvasHeight r : Int) (p v : Coordinate2D) :
    Coordinate2D × Coordinate2D :=
  -- Update position.
  let p : Coordinate2D := { p with x := toShort (p.x + v.x) }
  let p : Coordinate2D := { p with y := toShort (p.y + v.y) }
  -- Check left boundary.
  let pv : Coordinate2D × Coordinate2D :=
    if p.x < r then
      ({ p with x := toShort (2 * r - p.x) }, { v with x := toShort (-v.x) })
    else (p, v)
  -- Check right boundary.
  let pv : Coordinate2D × Coordinate2D :=
    if pv.1.x ≥ canvasWidth - r then
      ({ pv.1 with x := toShort (2 * (canvasWidth - r) - pv.1.x) },
       { pv.2 with x := toShort (-pv.2.x) })
    else pv
  -- Check top boundary.
  let pv : Coordinate2D × Coordinate2D :=
    if pv.1.y < r then
      ({ pv.1 with y := toShort (2 * r - pv.1.y) }, { pv.2 with y := toShort (-pv.2.y) })
    else pv
  -- Check bottom boundary.
  let pv : Coordinate2D × Coordinate2D :=
    if pv.1.y ≥ canvasHeight - r then
      ({ pv.1 with y := toShort (2 * (canvasHeight - r) - pv.1.y) },
       { pv.2 with y := toShort (-pv.2.y) })
    else pv
  pv

/-- One pass of the loop of `updateCircles`, for circle `i`. -/
def updateCirclesBody (s : State) (i : Nat) : State :=
  let pv := updateCircle s.canvasWidth s.canvasHeight (s.radius.getD i 0)
    (s.position.getD i default) (s.velocity.getD i default)
  { s with position := s.position.set i pv.1, velocity := s.velocity.set i pv.2 }

/-- Update circle positions and velocities. -/
def updateCircles (s : State) : State :=
  (List.range NUM_CIRCLES).foldl updateCirclesBody s

/-- Give access to position array. -/
def getPosition (s : State) : List Coordinate2D := s.position

/-- Give access to color array. -/
def getColor (s : State) : List ColorRGB := s.color

/-- Give access to radius array. -/
def getRadius (s : State) : List Int := s.radius

/-- Return number of circles. -/
def getNumCircles (_s : State) : Int := NUM_CIRCLES

/-! ## Auxiliary definitions used to state and prove the properties -/

/-- Circle `i` of state `s` exists, is one of the `NUM_CIRCLES` circles the
loops visit, and has radius `r`, position `p` and velocity `v`. -/
def hasCircle (s : State) (i : Nat) (r : Int) (p v : Coordinate2D) : Prop :=
  i < NUM_CIRCLES ∧ s.radius[i]? = some r ∧ s.position[i]? = some p ∧ s.velocity[i]? = some v

/-- The arrays have the declared number of entries. -/
def hasDeclaredSizes (s : State) : Prop :=
  s.color.length = NUM_CIRCLES ∧ s.position.length = NUM_CIRCLES ∧
    s.velocity.length = NUM_CIRCLES ∧ s.radius.length = NUM_CIRCLES

/-- The state is one the C declarations allow: the arrays have
`NUM_CIRCLES` entries and every cell holds a value of its C type. -/
def WellTyped (s : State) : Prop :=
  hasDeclaredSizes s ∧ isShort s.canvasWidth ∧ isShort s.canvasHeight ∧
    (∀ c ∈ s.color, isUChar c.red ∧ isUChar c.green ∧ isUChar c.blue) ∧
    (∀ p ∈ s.position, isShort p.x ∧ isShort p.y) ∧
    (∀ v ∈ s.velocity, isShort v.x ∧ isShort v.y) ∧
    (∀ r ∈ s.radius, isShort r)

/-- A state in which all circles are copies of one circle; used for
concrete instances. -/
def uniform (width height r : Int) (p v : Coordinate2D) : State where
  color := List.replicate NUM_CIRCLES ⟨0, 0, 0⟩
  position := List.replicate NUM_CIRCLES p
  velocity := List.replicate NUM_CIRCLES v
  radius := List.replicate NUM_CIRCLES r
  canvasWidth := width
  canvasHeight := height

/-- The state at program start: C zero-initialises the globals. -/
def zeroState : State := uniform 0 0 0 ⟨0, 0⟩ ⟨0, 0⟩

/-- The first `n` passes of the loop of `updateCircles`. -/
def updateLoop (n : Nat) (s : State) : State :=
  (List.range n).foldl updateCirclesBody s

/-- The first `n` passes of the loop of `initCircles`. -/
def initLoop (rand : Nat → Int) (n : Nat) (st : State × Nat) : Option (State × Nat) :=
  (List.range n).foldlM (initCirclesBody rand) st

/-- What the loop body of `updateCircles` does along one axis, written
out for the proofs: `dim` is the canvas size along the axis. -/
def bounce (dim r pos vel : Int) : Int × Int :=
  let pos := toShort (pos + vel)
  let pv : Int × Int := if pos < r then (toShort (2 * r - pos), toShort (-vel)) else (pos, vel)
  if pv.1 ≥ dim - r then (toShort (2 * (dim - r) - pv.1), toShort (-pv.2)) else pv

/-- `updateCircle` on a position-velocity pair. -/
def updatePair (canvasWidth canvasHeight r : Int) (pv : Coordinate2D × Coordinate2D) :
    Coordinate2D × Coordinate2D :=
  updateCircle canvasWidth canvasHeight r pv.1 pv.2

/-- The ranges `initCircles` draws a position and a velocity from, for a
circle of radius `r` on a `w` by `h` canvas. -/
def inInitRange (w h r : Int) (p v : Coordinate2D) : Prop :=
  (r ≤ p.x ∧ p.x < w - r) ∧ (r ≤ p.y ∧ p.y < h - r) ∧
    (-10 ≤ v.x ∧ v.x ≤ 9) ∧ (-10 ≤ v.y ∧ v.y ≤ 9)

/-- Boundary containment of a circle of radius `r` at `p` on a `w` by `h`
canvas. -/
def contained (w h r : Int) (p : Coordinate2D) : Prop :=
  (r ≤ p.x ∧ p.x ≤ w - r) ∧ (r ≤ p.y ∧ p.y ≤ h - r)

instance (w h r : Int) (p v : Coordinate2D) : Decidable (inInitRange w h r p v) := by
  unfold inInitRange; infer_instance

instance (w h r : Int) (p : Coordinate2D) : Decidable (contained w h r p) := by
  unfold contained; infer_instance

/-- The radius `initCircles` stores when the first of the eight calls of
`rand()` for the circle is call number `k`. -/
def initRadius (rand : Nat → Int) (k : Nat) : Int :=
  toShort (10 + Int.tmod (rand k) 40)

/-- The colour `initCircles` stores for that circle. -/
def initColor (rand : Nat → Int) (k : Nat) : ColorRGB :=
  ⟨toUChar (Int.tmod (rand (k + 1)) 256), toUChar (Int.tmod (rand (k + 2)) 256),
    toUChar (Int.tmod (rand (k + 3)) 256)⟩

/-- The position `initCircles` stores for that circle on a `w` by `h`
canvas. -/
def initPosition (rand : Nat → Int) (k : Nat) (w h : Int) : Coordinate2D :=
  ⟨toShort (initRadius rand k + toShort (Int.tmod (rand (k + 4)) (w - 2 * initRadius rand k))),
    toShort (initRadius rand k + toShort (Int.tmod (rand (k + 5)) (h - 2 * initRadius rand k)))⟩

/-- The velocity `initCircles` stores for that circle. -/
def initVelocity (rand : Nat → Int) (k : Nat) : Coordinate2D :=
  ⟨toShort (-10 + Int.tmod (rand (k + 6)) 20), toShort (-10 + Int.tmod (rand (k + 7)) 20)⟩

/-- No circle among the first `n` has a diameter equal to the canvas width
or height, so that no `getRand` of `initCircles` divides by zero. -/
def noZeroDivisor (rand : Nat → Int) (w h : Int) (n : Nat) : Prop :=
  ∀ i, i < n → w - 2 * initRadius rand (8 * i) ≠ 0 ∧ h - 2 * initRadius rand (8 * i) ≠ 0

/-- A sample sequence of `rand()` results (a linear congruential
generator with 31-bit results); used for concrete instances. -/
def sampleRand (k : Nat) : Int := (1103515245 * k + 12345) % 2147483648

instance (s : State) (i : Nat) (r : Int) (p v : Coordinate2D) :
    Decidable (hasCircle s i r p v) := by
  unfold hasCircle; infer_instance

instance (s : State) : Decidable (hasDeclaredSizes s) := by
  unfold hasDeclaredSizes; infer_instance

instance (s : State) : Decidable (WellTyped s) := by
  unfold WellTyped; infer_instance

instance (rand : Nat → Int) (w h : Int) (n : Nat) : Decidable (noZeroDivisor rand w h n) := by
  unfold noZeroDivisor; infer_instance

/-- Exchange of the two coordinates. -/
def Coordinate2D.swap (c : Coordinate2D) : Coordinate2D := ⟨c.y, c.x⟩

/-- The state with x and y exchanged in every position and velocity and
`canvasWidth` exchanged with `canvasHeight`. -/
def swapAxes (s : State) : State :=
  { s with
    position := s.position.map Coordinate2D.swap
    velocity := s.velocity.map Coordinate2D.swap
    canvasWidth := s.canvasHeight
    canvasHeight := s.canvasWidth }

/-- The speed of a circle of radius `r` at `p` with velocity `v` fits in
the free span of a `w` by `h` canvas, the circle is contained, and the
position plus the velocity, whatever the sign of the velocity, stays below
the 16-bit bound. -/
def fitsFreeSpan (w h r : Int) (p v : Coordinate2D) : Prop :=
  0 ≤ r ∧ w ≤ 32767 ∧ h ≤ 32767 ∧
    (-(w - 2 * r) ≤ v.x ∧ v.x ≤ w - 2 * r) ∧ (-(h - 2 * r) ≤ v.y ∧ v.y ≤ h - 2 * r) ∧
    contained w h r p ∧
    (w - r + v.x ≤ 32767 ∧ w - r - v.x ≤ 32767) ∧
    (h - r + v.y ≤ 32767 ∧ h - r - v.y ≤ 32767)

instance (w h r : Int) (p v : Coordinate2D) : Decidable (fitsFreeSpan w h r p v) := by
  unfold fitsFreeSpan; infer_instance

/-! ## Conversions -/

theorem toShort_eq_self {z : Int} (h : isShort z) : toShort z = z := by
  unfold isShort at h; unfold toShort; omega

theorem isShort_toShort (z : Int) : isShort (toShort z) := by
  unfold isShort toShort; omega

theorem isUChar_toUChar (z : Int) : isUChar (toUChar z) := by
  unfold isUChar toUChar; omega

/-! ## The loop of `updateCircles` -/

theorem updateCircle_eq_bounce (w h r : Int) (p v : Coordinate2D) :
    updateCircle w h r p v =
      (⟨(bounce w r p.x v.x).1, (bounce h r p.y v.y).1⟩,
       ⟨(bounce w r p.x v.x).2, (bounce h r p.y v.y).2⟩) := by
  unfold updateCircle bounce
  by_cases h1 : toShort (p.x + v.x) < r <;>
  by_cases h2 : toShort (p.y + v.y) < r <;>
  by_cases h3 : toShort (2 * r - toShort (p.x + v.x)) ≥ w - r <;>
  by_cases h4 : toShort (p.x + v.x) ≥ w - r <;>
  by_cases h5 : toShort (2 * r - toShort (p.y + v.y)) ≥ h - r <;>
  by_cases h6 : toShort (p.y + v.y) ≥ h - r <;>
  simp [h1, h2, h3, h4, h5, h6]

theorem updateLoop_succ (n : Nat) (s : State) :
    updateLoop (n + 1) s = updateCirclesBody (updateLoop n s) n := by
  simp [updateLoop, List.range_succ, List.foldl_append]

theorem updateLoop_frame (n : Nat) (s : State) :
    (updateLoop n s).radius = s.radius ∧ (updateLoop n s).color = s.color ∧
      (updateLoop n s).canvasWidth = s.canvasWidth ∧
      (updateLoop n s).canvasHeight = s.canvasHeight ∧
      (updateLoop n s).position.length = s.position.length ∧
      (updateLoop n s).velocity.length = s.velocity.length := by
  induction n with
  | zero => simp [updateLoop]
  | succ n ih =>
    rw [updateLoop_succ]
    obtain ⟨h1, h2, h3, h4, h5, h6⟩ := ih
    simp [updateCirclesBody, h1, h2, h3, h4, h5, h6]

theorem updateLoop_untouched (n : Nat) (s : State) (i : Nat) (hi : n ≤ i) :
    (updateLoop n s).position[i]? = s.position[i]? ∧
      (updateLoop n s).velocity[i]? = s.velocity[i]? := by
  induction n with
  | zero => simp [updateLoop]
  | succ n ih =>
    rw [updateLoop_succ]
    obtain ⟨h1, h2⟩ := ih (by omega)
    have hne : n ≠ i := by omega
    simp [updateCirclesBody, List.getElem?_set_ne hne, h1, h2]

theorem updateLoop_circle (n : Nat) (s : State) (i : Nat) (r : Int) (p v : Coordinate2D)
    (hi : i < n) (hr : s.radius[i]? = some r) (hp : s.position[i]? = some p)
    (hv : s.velocity[i]? = some v) :
    (updateLoop n s).position[i]? = some (updateCircle s.canvasWidth s.canvasHeight r p v).1 ∧
      (updateLoop n s).velocity[i]? =
        some (updateCircle s.canvasWidth s.canvasHeight r p v).2 := by
  induction n with
  | zero => omega
  | succ n ih =>
    rw [updateLoop_succ]
    obtain ⟨f1, -, f3, f4, f5, f6⟩ := updateLoop_frame n s
    by_cases hin : i < n
    · obtain ⟨h1, h2⟩ := ih hin
      have hne : n ≠ i := by omega
      simp [updateCirclesBody, List.getElem?_set_ne hne, h1, h2]
    · have hn : i = n := by omega
      subst hn
      obtain ⟨h1, h2⟩ := updateLoop_untouched i s i (le_refl i)
      have hpl : i < s.position.length := by
        rcases List.getElem?_eq_some.mp hp with ⟨h, -⟩; exact h
      have hvl : i < s.velocity.length := by
        rcases List.getElem?_eq_some.mp hv with ⟨h, -⟩; exact h
      simp [updateCirclesBody, List.getD_eq_getElem?_getD, h1, h2, f1, f3, f4, f5, f6,
        hr, hp, hv, hpl, hvl]

/-! ## One call and repeated calls of `updateCircles` -/

theorem updateCircles_frame (s : State) :
    (updateCircles s).radius = s.radius ∧ (updateCircles s).color = s.color ∧
      (updateCircles s).canvasWidth = s.canvasWidth ∧
      (updateCircles s).canvasHeight = s.canvasHeight ∧
      (updateCircles s).position.length = s.position.length ∧
      (updateCircles s).velocity.length = s.velocity.length :=
  updateLoop_frame NUM_CIRCLES s

theorem iterate_updateCircles_frame (n : Nat) (s : State) :
    (updateCircles^[n] s).radius = s.radius ∧ (updateCircles^[n] s).color = s.color ∧
      (updateCircles^[n] s).canvasWidth = s.canvasWidth ∧
      (updateCircles^[n] s).canvasHeight = s.canvasHeight ∧
      (updateCircles^[n] s).position.length = s.position.length ∧
      (updateCircles^[n] s).velocity.length = s.velocity.length := by
  induction n with
  | zero => simp
  | succ n ih =>
    rw [Function.iterate_succ_apply']
    obtain ⟨h1, h2, h3, h4, h5, h6⟩ := ih
    obtain ⟨g1, g2, g3, g4, g5, g6⟩ := updateCircles_frame (updateCircles^[n] s)
    exact ⟨g1.trans h1, g2.trans h2, g3.trans h3, g4.trans h4, g5.trans h5, g6.trans h6⟩

theorem hasCircle_updateCircles {s : State} {i : Nat} {r : Int} {p v : Coordinate2D}
    (hc : hasCircle s i r p v) :
    hasCircle (updateCircles s) i r (updateCircle s.canvasWidth s.canvasHeight r p v).1
      (updateCircle s.canvasWidth s.canvasHeight r p v).2 := by
  obtain ⟨hi, hr, hp, hv⟩ := hc
  obtain ⟨h1, h2⟩ := updateLoop_circle NUM_CIRCLES s i r p v hi hr hp hv
  refine ⟨hi, ?_, h1, h2⟩
  rw [(updateCircles_frame s).1]; exact hr

theorem hasCircle_iterate {s : State} {i : Nat} {r : Int} {p v : Coordinate2D}
    (hc : hasCircle s i r p v) (n : Nat) :
    hasCircle (updateCircles^[n] s) i r
      ((updatePair s.canvasWidth s.canvasHeight r)^[n] (p, v)).1
      ((updatePair s.canvasWidth s.canvasHeight r)^[n] (p, v)).2 := by
  induction n with
  | zero => simpa using hc
  | succ n ih =>
    rw [Function.iterate_succ_apply', Function.iterate_succ_apply']
    have h := hasCircle_updateCircles ih
    obtain ⟨-, -, g3, g4, -, -⟩ := iterate_updateCircles_frame n s
    rw [g3, g4] at h
    exact h

theorem hasCircle_uniform (width height r : Int) (p v : Coordinate2D) (i : Nat)
    (hi : i < NUM_CIRCLES) : hasCircle (uniform width height r p v) i r p v := by
  simp [hasCircle, uniform, List.getElem?_replicate, hi]

theorem wellTyped_uniform (width height r : Int) (p v : Coordinate2D)
    (hw : isShort width) (hh : isShort height) (hr : isShort r)
    (hp : isShort p.x ∧ isShort p.y) (hv : isShort v.x ∧ isShort v.y) :
    WellTyped (uniform width height r p v) := by
  refine ⟨⟨?_, ?_, ?_, ?_⟩, hw, hh, ?_, ?_, ?_, ?_⟩ <;>
    simp [uniform, List.mem_replicate, isUChar] <;> intros <;> assumption

theorem WellTyped.circle {s : State} {i : Nat} {r : Int} {p v : Coordinate2D}
    (hs : WellTyped s) (hc : hasCircle s i r p v) :
    isShort s.canvasWidth ∧ isShort s.canvasHeight ∧ isShort r ∧
      isShort p.x ∧ isShort p.y ∧ isShort v.x ∧ isShort v.y := by
  obtain ⟨-, hw, hh, -, hp, hv, hr⟩ := hs
  obtain ⟨-, cr, cp, cv⟩ := hc
  have mr := List.mem_iff_getElem?.mpr ⟨i, cr⟩
  have mp := List.mem_iff_getElem?.mpr ⟨i, cp⟩
  have mv := List.mem_iff_getElem?.mpr ⟨i, cv⟩
  exact ⟨hw, hh, hr r mr, (hp p mp).1, (hp p mp).2, (hv v mv).1, (hv v mv).2⟩

/-! ## Boundary containment -/

theorem bounce_contained (dim r pos vel : Int) (hp : r ≤ pos ∧ pos ≤ dim - r)
    (hv : -10 ≤ vel ∧ vel ≤ 10) (hsum : pos + vel ≤ 2 * dim - 3 * r)
    (hspan : 2 * r + 9 ≤ dim) (hlo : -32768 ≤ r - 10) (hhi : dim - r + 10 ≤ 32767) :
    (r ≤ (bounce dim r pos vel).1 ∧ (bounce dim r pos vel).1 ≤ dim - r) ∧
      (-10 ≤ (bounce dim r pos vel).2 ∧ (bounce dim r pos vel).2 ≤ 10) ∧
      (bounce dim r pos vel).1 + (bounce dim r pos vel).2 ≤ 2 * dim - 3 * r := by
  have e1 : toShort (pos + vel) = pos + vel := toShort_eq_self ⟨by omega, by omega⟩
  have e3 : toShort (-vel) = -vel := toShort_eq_self ⟨by omega, by omega⟩
  have e4 : toShort (- -vel) = vel := by
    rw [neg_neg]; exact toShort_eq_self ⟨by omega, by omega⟩
  unfold bounce
  simp only [e1]
  by_cases h1 : pos + vel < r
  · have e2 : toShort (2 * r - (pos + vel)) = 2 * r - (pos + vel) :=
      toShort_eq_self ⟨by omega, by omega⟩
    simp only [h1, if_true, e2, e3]
    by_cases h2 : 2 * r - (pos + vel) ≥ dim - r
    · have e5 : toShort (2 * (dim - r) - (2 * r - (pos + vel))) =
          2 * (dim - r) - (2 * r - (pos + vel)) := toShort_eq_self ⟨by omega, by omega⟩
      simp only [h2, if_true, e4, e5]
      omega
    · simp only [h2, if_false]
      omega
  · simp only [h1, if_false]
    by_cases h2 : pos + vel ≥ dim - r
    · have e5 : toShort (2 * (dim - r) - (pos + vel)) = 2 * (dim - r) - (pos + vel) :=
        toShort_eq_self ⟨by omega, by omega⟩
      simp only [h2, if_true, e3, e5]
      omega
    · simp only [h2, if_false]
      omega

theorem updatePair_contained (w h r : Int) (pv : Coordinate2D × Coordinate2D)
    (hw : 2 * r + 9 ≤ w) (hh : 2 * r + 9 ≤ h) (hlo : -32768 ≤ r - 10)
    (hwhi : w - r + 10 ≤ 32767) (hhhi : h - r + 10 ≤ 32767)
    (hc : contained w h r pv.1)
    (hv : (-10 ≤ pv.2.x ∧ pv.2.x ≤ 10) ∧ (-10 ≤ pv.2.y ∧ pv.2.y ≤ 10))
    (hsum : pv.1.x + pv.2.x ≤ 2 * w - 3 * r ∧ pv.1.y + pv.2.y ≤ 2 * h - 3 * r) (n : Nat) :
    contained w h r ((updatePair w h r)^[n] pv).1 ∧
      ((-10 ≤ ((updatePair w h r)^[n] pv).2.x ∧ ((updatePair w h r)^[n] pv).2.x ≤ 10) ∧
        (-10 ≤ ((updatePair w h r)^[n] pv).2.y ∧ ((updatePair w h r)^[n] pv).2.y ≤ 10)) ∧
      (((updatePair w h r)^[n] pv).1.x + ((updatePair w h r)^[n] pv).2.x ≤ 2 * w - 3 * r ∧
        ((updatePair w h r)^[n] pv).1.y + ((updatePair w h r)^[n] pv).2.y ≤ 2 * h - 3 * r) := by
  induction n with
  | zero => exact ⟨hc, hv, hsum⟩
  | succ n ih =>
    rw [Function.iterate_succ_apply']
    obtain ⟨⟨cx, cy⟩, ⟨vx, vy⟩, sx, sy⟩ := ih
    have bx := bounce_contained w r _ _ cx vx sx hw hlo hwhi
    have by' := bounce_contained h r _ _ cy vy sy hh hlo hhhi
    simp only [updatePair, updateCircle_eq_bounce, contained]
    exact ⟨⟨bx.1, by'.1⟩, ⟨bx.2.1, by'.2.1⟩, bx.2.2, by'.2.2⟩

/-- C1 (amended): boundary containment on a canvas with a free span of at
least 9.  For a circle `i` of radius `r` in a state as `initCircles`
produces it (`r ≤ x < width - r`, `r ≤ y < height - r`, velocity components
in `[-10, 9]`), if `width ≥ 2 * r + 9` and `height ≥ 2 * r + 9` and no
position plus velocity can leave the 16-bit range (`r - 10 ≥ -32768`,
`width - r + 10 ≤ 32767`, `height - r + 10 ≤ 32767`), then after every
number `n` of `updateCircles` calls `r ≤ x ≤ width - r` and
`r ≤ y ≤ height - r`. -/
theorem containment_of_wide_canvas (s : State) (i : Nat) (r : Int) (p v : Coordinate2D)
    (hc : hasCircle s i r p v)
    (hinit : inInitRange s.canvasWidth s.canvasHeight r p v)
    (hw : s.canvasWidth ≥ 2 * r + 9) (hh : s.canvasHeight ≥ 2 * r + 9)
    (hlo : -32768 ≤ r - 10)
    (hwhi : s.canvasWidth - r + 10 ≤ 32767) (hhhi : s.canvasHeight - r + 10 ≤ 32767)
    (n : Nat) :
    ∃ p', (updateCircles^[n] s).position[i]? = some p' ∧
      (updateCircles^[n] s).radius[i]? = some r ∧
      contained (updateCircles^[n] s).canvasWidth (updateCircles^[n] s).canvasHeight r p' := by
  obtain ⟨-, hr', hp', -⟩ := hasCircle_iterate hc n
  obtain ⟨-, -, g3, g4, -, -⟩ := iterate_updateCircles_frame n s
  obtain ⟨⟨hx1, hx2⟩, ⟨hy1, hy2⟩, ⟨hvx1, hvx2⟩, hvy1, hvy2⟩ := hinit
  refine ⟨_, hp', hr', ?_⟩
  rw [g3, g4]
  have sx : p.x + v.x ≤ 2 * s.canvasWidth - 3 * r := by omega
  have sy : p.y + v.y ≤ 2 * s.canvasHeight - 3 * r := by omega
  exact (updatePair_contained s.canvasWidth s.canvasHeight r (p, v) hw hh hlo hwhi hhhi
    ⟨⟨hx1, hx2.le⟩, hy1, hy2.le⟩
    ⟨⟨hvx1, hvx2.trans (by decide)⟩, hvy1, hvy2.trans (by decide)⟩ ⟨sx, sy⟩ n).1

/-- Instance of C1 (amended): radius 10 at `(10, 50)` with velocity
`(-10, 9)` on a 29 by 480 canvas, whose free span along x is exactly 9,
after 7 calls. -/
theorem containment_of_wide_canvas_witness :
    hasCircle (uniform 29 480 10 ⟨10, 50⟩ ⟨-10, 9⟩) 0 10 ⟨10, 50⟩ ⟨-10, 9⟩ ∧
      inInitRange 29 480 10 ⟨10, 50⟩ ⟨-10, 9⟩ ∧
      (29 : Int) ≥ 2 * 10 + 9 ∧ (480 : Int) ≥ 2 * 10 + 9 ∧
      (∃ p', (updateCircles^[7] (uniform 29 480 10 ⟨10, 50⟩ ⟨-10, 9⟩)).position[0]? = some p' ∧
        (updateCircles^[7] (uniform 29 480 10 ⟨10, 50⟩ ⟨-10, 9⟩)).radius[0]? = some 10 ∧
        contained (updateCircles^[7] (uniform 29 480 10 ⟨10, 50⟩ ⟨-10, 9⟩)).canvasWidth
          (updateCircles^[7] (uniform 29 480 10 ⟨10, 50⟩ ⟨-10, 9⟩)).canvasHeight 10 p') :=
  ⟨hasCircle_uniform _ _ _ _ _ 0 (by decide), by decide, by decide, by decide,
    containment_of_wide_canvas (uniform 29 480 10 ⟨10, 50⟩ ⟨-10, 9⟩) 0 10 ⟨10, 50⟩ ⟨-10, 9⟩
      (hasCircle_uniform _ _ _ _ _ 0 (by decide)) (by decide) (by decide) (by decide)
      (by decide) (by decide) (by decide) 7⟩

/-- C1 as stated fails.  First input: radius 49 at `(49, 60)` with velocity
`(-10, 0)` on a 99 by 200 canvas is in the range `initCircles` draws from
and has `width > 2 * radius`, `height > 2 * radius`; one call reflects it
at the left and then at the right wall and leaves it at `x = 41 < 49`.
Second input: radius 0 at `(32766, 100)` with velocity `(2, 0)` on a 32767
by 32767 canvas; `32766 + 2` wraps to `-32768` and one call leaves it at
`x = -32768 < 0`.  Third input: radius 10 at `(11, 50)` with velocity
`(-10, 0)` on a 28 by 200 canvas, whose free span along x is 8; five calls
take `x` through `17, 13, 13, 17` to `9 < 10`. -/
theorem containment_fails_as_stated :
    (hasCircle (uniform 99 200 49 ⟨49, 60⟩ ⟨-10, 0⟩) 0 49 ⟨49, 60⟩ ⟨-10, 0⟩ ∧
      (99 : Int) > 2 * 49 ∧ (200 : Int) > 2 * 49 ∧
      inInitRange 99 200 49 ⟨49, 60⟩ ⟨-10, 0⟩ ∧
      (updateCircles (uniform 99 200 49 ⟨49, 60⟩ ⟨-10, 0⟩)).position[0]? = some ⟨41, 60⟩ ∧
      ¬ contained 99 200 49 ⟨41, 60⟩) ∧
    (hasCircle (uniform 32767 32767 0 ⟨32766, 100⟩ ⟨2, 0⟩) 0 0 ⟨32766, 100⟩ ⟨2, 0⟩ ∧
      (32767 : Int) > 2 * 0 ∧
      inInitRange 32767 32767 0 ⟨32766, 100⟩ ⟨2, 0⟩ ∧
      (updateCircles (uniform 32767 32767 0 ⟨32766, 100⟩ ⟨2, 0⟩)).position[0]? =
        some ⟨-32768, 100⟩ ∧
      ¬ contained 32767 32767 0 ⟨-32768, 100⟩) ∧
    (hasCircle (uniform 28 200 10 ⟨11, 50⟩ ⟨-10, 0⟩) 0 10 ⟨11, 50⟩ ⟨-10, 0⟩ ∧
      (28 : Int) > 2 * 10 ∧ (200 : Int) > 2 * 10 ∧
      inInitRange 28 200 10 ⟨11, 50⟩ ⟨-10, 0⟩ ∧
      (updateCircles^[5] (uniform 28 200 10 ⟨11, 50⟩ ⟨-10, 0⟩)).position[0]? = some ⟨9, 50⟩ ∧
      ¬ contained 28 200 10 ⟨9, 50⟩) := by
  refine ⟨⟨hasCircle_uniform _ _ _ _ _ 0 (by decide), by decide, by decide, by decide, ?_,
    by decide⟩, ⟨hasCircle_uniform _ _ _ _ _ 0 (by decide), by decide, by decide, ?_,
    by decide⟩, hasCircle_uniform _ _ _ _ _ 0 (by decide), by decide, by decide, by decide,
    ?_, by decide⟩
  · have e : (updateCircle 99 200 49 ⟨49, 60⟩ ⟨-10, 0⟩).1 = ⟨41, 60⟩ := by decide
    rw [(hasCircle_updateCircles (hasCircle_uniform 99 200 49 ⟨49, 60⟩ ⟨-10, 0⟩ 0
      (by decide))).2.2.1]
    exact congrArg some e
  · have e : (updateCircle 32767 32767 0 ⟨32766, 100⟩ ⟨2, 0⟩).1 = ⟨-32768, 100⟩ := by decide
    rw [(hasCircle_updateCircles (hasCircle_uniform 32767 32767 0 ⟨32766, 100⟩ ⟨2, 0⟩ 0
      (by decide))).2.2.1]
    exact congrArg some e
  · have e1 : updatePair 28 200 10 (⟨11, 50⟩, ⟨-10, 0⟩) = (⟨17, 50⟩, ⟨-10, 0⟩) := by decide
    have e2 : updatePair 28 200 10 (⟨17, 50⟩, ⟨-10, 0⟩) = (⟨13, 50⟩, ⟨10, 0⟩) := by decide
    have e3 : updatePair 28 200 10 (⟨13, 50⟩, ⟨10, 0⟩) = (⟨13, 50⟩, ⟨-10, 0⟩) := by decide
    have e4 : updatePair 28 200 10 (⟨13, 50⟩, ⟨-10, 0⟩) = (⟨17, 50⟩, ⟨10, 0⟩) := by decide
    have e5 : updatePair 28 200 10 (⟨17, 50⟩, ⟨10, 0⟩) = (⟨9, 50⟩, ⟨-10, 0⟩) := by decide
    have e : ((updatePair 28 200 10)^[5] (⟨11, 50⟩, ⟨-10, 0⟩)).1 = ⟨9, 50⟩ := by
      show (updatePair 28 200 10 (updatePair 28 200 10 (updatePair 28 200 10
        (updatePair 28 200 10 (updatePair 28 200 10 (⟨11, 50⟩, ⟨-10, 0⟩)))))).1 = ⟨9, 50⟩
      rw [e1, e2, e3, e4, e5]
    rw [(hasCircle_iterate (hasCircle_uniform 28 200 10 ⟨11, 50⟩ ⟨-10, 0⟩ 0
      (by decide)) 5).2.2.1]
    exact congrArg some e

/-! ## The boundary rules along one axis -/

theorem bounce_left (dim r pos vel : Int) (hd : isShort dim)
    (hq : pos + vel < r) (hnr : 2 * r - (pos + vel) < dim - r)
    (hov : -32768 ≤ pos + vel) (hneg : isShort (-vel)) :
    bounce dim r pos vel = (2 * r - (pos + vel), -vel) := by
  unfold isShort at hd hneg
  have e1 : toShort (pos + vel) = pos + vel := toShort_eq_self ⟨by omega, by omega⟩
  have e2 : toShort (2 * r - (pos + vel)) = 2 * r - (pos + vel) :=
    toShort_eq_self ⟨by omega, by omega⟩
  have e3 : toShort (-vel) = -vel := toShort_eq_self ⟨by omega, by omega⟩
  have h2 : ¬ (2 * r - (pos + vel) ≥ dim - r) := by omega
  unfold bounce
  simp only [e1, hq, if_true, e2, e3, h2, if_false]

theorem bounce_right (dim r pos vel : Int) (hr : isShort r)
    (hq1 : r ≤ pos + vel) (hq2 : dim - r ≤ pos + vel) (hov : pos + vel ≤ 32767)
    (hun : -32768 ≤ 2 * (dim - r) - (pos + vel)) (hneg : isShort (-vel)) :
    bounce dim r pos vel = (2 * (dim - r) - (pos + vel), -vel) := by
  unfold isShort at hr hneg
  have e1 : toShort (pos + vel) = pos + vel := toShort_eq_self ⟨by omega, by omega⟩
  have e2 : toShort (2 * (dim - r) - (pos + vel)) = 2 * (dim - r) - (pos + vel) :=
    toShort_eq_self ⟨by omega, by omega⟩
  have e3 : toShort (-vel) = -vel := toShort_eq_self ⟨by omega, by omega⟩
  have h1 : ¬ (pos + vel < r) := by omega
  have h2 : pos + vel ≥ dim - r := hq2
  unfold bounce
  simp only [e1, h1, if_false, h2, if_true, e2, e3]

theorem bounce_free (dim r pos vel : Int) (hr : isShort r)
    (hq1 : r ≤ pos + vel) (hq2 : pos + vel < dim - r) (hov : pos + vel ≤ 32767) :
    bounce dim r pos vel = (pos + vel, vel) := by
  unfold isShort at hr
  have e1 : toShort (pos + vel) = pos + vel := toShort_eq_self ⟨by omega, by omega⟩
  have h1 : ¬ (pos + vel < r) := by omega
  have h2 : ¬ (pos + vel ≥ dim - r) := by omega
  unfold bounce
  simp only [e1, h1, if_false, h2]

theorem bounce_speed (dim r pos vel : Int) (hv : -10 ≤ vel ∧ vel ≤ 10) :
    -10 ≤ (bounce dim r pos vel).2 ∧ (bounce dim r pos vel).2 ≤ 10 := by
  have e3 : toShort (-vel) = -vel := toShort_eq_self ⟨by omega, by omega⟩
  have e4 : toShort (- -vel) = vel := by
    rw [neg_neg]; exact toShort_eq_self ⟨by omega, by omega⟩
  unfold bounce
  dsimp only
  split_ifs <;> simp only [e3, e4] <;> omega

theorem isShort_neg {z : Int} (hz : isShort z) (hne : z ≠ -32768) : isShort (-z) := by
  unfold isShort at *; omega

/-- The x cells of circle `i` after one call, in terms of `bounce`. -/
theorem updateCircles_x {s : State} {i : Nat} {r : Int} {p v : Coordinate2D}
    (hc : hasCircle s i r p v) :
    ∃ p' v', (updateCircles s).position[i]? = some p' ∧
      (updateCircles s).velocity[i]? = some v' ∧
      (p'.x, v'.x) = bounce s.canvasWidth r p.x v.x ∧
      (p'.y, v'.y) = bounce s.canvasHeight r p.y v.y := by
  obtain ⟨-, -, hp, hv⟩ := hasCircle_updateCircles hc
  refine ⟨_, _, hp, hv, ?_, ?_⟩ <;> simp [updateCircle_eq_bounce]

/-! ## Reflection at the left wall -/

/-- C2 (amended): left-wall reflection test.  A circle with
`position.x = radius - 1` and `velocity.x = -5` first moves to `radius - 6`
and is then reflected: after one `updateCircles` call
`position.x = radius + 6` and `velocity.x = 5`, when the canvas is wide
enough that the right boundary is not touched (`radius + 6 < width - radius`)
and `radius - 6` is a 16-bit value; the y cells play no part. -/
theorem left_wall_bounce (s : State) (i : Nat) (r : Int) (p v : Coordinate2D)
    (hs : WellTyped s) (hc : hasCircle s i r p v)
    (hpx : p.x = r - 1) (hvx : v.x = -5) (hlo : -32768 ≤ r - 6)
    (hwide : r + 6 < s.canvasWidth - r) :
    ∃ p' v', (updateCircles s).position[i]? = some p' ∧
      (updateCircles s).velocity[i]? = some v' ∧ p'.x = r + 6 ∧ v'.x = 5 := by
  obtain ⟨hw, -, -, -, -, -, -⟩ := hs.circle hc
  obtain ⟨p', v', h1, h2, hx, -⟩ := updateCircles_x hc
  have hb := bounce_left s.canvasWidth r p.x v.x hw (by omega) (by omega) (by omega)
    (by rw [hvx]; decide)
  rw [hb, hpx, hvx] at hx
  have e1 := congrArg Prod.fst hx
  have e2 := congrArg Prod.snd hx
  simp only at e1 e2
  exact ⟨p', v', h1, h2, by omega, by omega⟩

/-- Instance of C2 (amended): radius 10 at `(9, 50)` with velocity `(-5, 0)`
on a 200 by 200 canvas. -/
theorem left_wall_bounce_witness :
    WellTyped (uniform 200 200 10 ⟨9, 50⟩ ⟨-5, 0⟩) ∧
      hasCircle (uniform 200 200 10 ⟨9, 50⟩ ⟨-5, 0⟩) 0 10 ⟨9, 50⟩ ⟨-5, 0⟩ ∧
      ∃ p' v', (updateCircles (uniform 200 200 10 ⟨9, 50⟩ ⟨-5, 0⟩)).position[0]? = some p' ∧
        (updateCircles (uniform 200 200 10 ⟨9, 50⟩ ⟨-5, 0⟩)).velocity[0]? = some v' ∧
        p'.x = 10 + 6 ∧ v'.x = 5 :=
  ⟨wellTyped_uniform _ _ _ _ _ (by decide) (by decide) (by decide) (by decide) (by decide),
    hasCircle_uniform _ _ _ _ _ 0 (by decide),
    left_wall_bounce (uniform 200 200 10 ⟨9, 50⟩ ⟨-5, 0⟩) 0 10 ⟨9, 50⟩ ⟨-5, 0⟩
      (wellTyped_uniform _ _ _ _ _ (by decide) (by decide) (by decide) (by decide) (by decide))
      (hasCircle_uniform _ _ _ _ _ 0 (by decide)) (by decide) (by decide) (by decide)
      (by decide)⟩

/-- C2 as stated fails: radius 10 at `(9, 50)` (so `position.x = radius - 1`)
with velocity `(-5, 0)` on a 200 by 200 canvas, where neither the right
boundary nor a y boundary is touched, is at `x = 16` after one call, not
at `radius + 1 = 11`; the velocity is `5` as stated. -/
theorem left_wall_test_fails_as_stated :
    hasCircle (uniform 200 200 10 ⟨9, 50⟩ ⟨-5, 0⟩) 0 10 ⟨9, 50⟩ ⟨-5, 0⟩ ∧
      (9 : Int) = 10 - 1 ∧
      ((10 : Int) ≤ 50 + 0 ∧ (50 : Int) + 0 < 200 - 10) ∧
      (updateCircles (uniform 200 200 10 ⟨9, 50⟩ ⟨-5, 0⟩)).position[0]? = some ⟨16, 50⟩ ∧
      (updateCircles (uniform 200 200 10 ⟨9, 50⟩ ⟨-5, 0⟩)).velocity[0]? = some ⟨5, 0⟩ ∧
      (16 : Int) < 200 - 10 ∧ (16 : Int) ≠ 10 + 1 := by
  have h := hasCircle_updateCircles (hasCircle_uniform 200 200 10 ⟨9, 50⟩ ⟨-5, 0⟩ 0 (by decide))
  have e : updateCircle 200 200 10 ⟨9, 50⟩ ⟨-5, 0⟩ = (⟨16, 50⟩, ⟨5, 0⟩) := by decide
  refine ⟨hasCircle_uniform _ _ _ _ _ 0 (by decide), by decide, by decide, ?_, ?_, by decide,
    by decide⟩
  · rw [h.2.2.1]; exact congrArg (fun q => some q.1) e
  · rw [h.2.2.2]; exact congrArg (fun q => some q.2) e

/-- C3 (amended): left boundary rule.  With all cells holding 16-bit values
and `q = position.x + velocity.x` for the values before the step, if
`q < radius` and `2 * radius - q < width - radius`, and neither `q` nor the
negated velocity leaves the 16-bit range (`q ≥ -32768`,
`velocity.x ≠ -32768`), then after one `updateCircles` call
`position.x = 2 * radius - q` and `velocity.x` is negated. -/
theorem left_boundary_rule (s : State) (i : Nat) (r : Int) (p v : Coordinate2D)
    (hs : WellTyped s) (hc : hasCircle s i r p v)
    (hq : p.x + v.x < r) (hnr : 2 * r - (p.x + v.x) < s.canvasWidth - r)
    (hov : -32768 ≤ p.x + v.x) (hneg : v.x ≠ -32768) :
    ∃ p' v', (updateCircles s).position[i]? = some p' ∧
      (updateCircles s).velocity[i]? = some v' ∧
      p'.x = 2 * r - (p.x + v.x) ∧ v'.x = -v.x := by
  obtain ⟨hw, -, -, -, -, hvx, -⟩ := hs.circle hc
  obtain ⟨p', v', h1, h2, hx, -⟩ := updateCircles_x hc
  rw [bounce_left s.canvasWidth r p.x v.x hw hq hnr hov (isShort_neg hvx hneg)] at hx
  exact ⟨p', v', h1, h2, congrArg Prod.fst hx, congrArg Prod.snd hx⟩

/-- Instance of C3 (amended): radius 10 at `(12, 50)` with velocity `(-7, 0)`
on a 200 by 200 canvas. -/
theorem left_boundary_rule_witness :
    WellTyped (uniform 200 200 10 ⟨12, 50⟩ ⟨-7, 0⟩) ∧
      hasCircle (uniform 200 200 10 ⟨12, 50⟩ ⟨-7, 0⟩) 0 10 ⟨12, 50⟩ ⟨-7, 0⟩ ∧
      ∃ p' v', (updateCircles (uniform 200 200 10 ⟨12, 50⟩ ⟨-7, 0⟩)).position[0]? = some p' ∧
        (updateCircles (uniform 200 200 10 ⟨12, 50⟩ ⟨-7, 0⟩)).velocity[0]? = some v' ∧
        p'.x = 2 * 10 - (12 + -7) ∧ v'.x = - -7 :=
  ⟨wellTyped_uniform _ _ _ _ _ (by decide) (by decide) (by decide) (by decide) (by decide),
    hasCircle_uniform _ _ _ _ _ 0 (by decide),
    left_boundary_rule (uniform 200 200 10 ⟨12, 50⟩ ⟨-7, 0⟩) 0 10 ⟨12, 50⟩ ⟨-7, 0⟩
      (wellTyped_uniform _ _ _ _ _ (by decide) (by decide) (by decide) (by decide) (by decide))
      (hasCircle_uniform _ _ _ _ _ 0 (by decide)) (by decide) (by decide) (by decide)
      (by decide)⟩

/-- C3 as stated fails.  First input: radius 0 at `(2, 50)` with velocity
`(-32768, 0)` on a 32767 by 200 canvas: all cells hold 16-bit values,
`q = -32766 < 0` and `2 * 0 - q = 32766 < 32767`, yet `velocity.x` is
`-32768` after the call, not its negation.  Second input: radius `-1` at
`(-32768, 50)` with velocity `(-1, 0)` on a 32767 by 200 canvas:
`q = -32769 < -1` and `2 * (-1) - q = 32767 < 32768`, but the sum wraps to
`32767`, no wall is met and `velocity.x` stays `-1`. -/
theorem left_boundary_rule_fails_as_stated :
    (WellTyped (uniform 32767 200 0 ⟨2, 50⟩ ⟨-32768, 0⟩) ∧
      hasCircle (uniform 32767 200 0 ⟨2, 50⟩ ⟨-32768, 0⟩) 0 0 ⟨2, 50⟩ ⟨-32768, 0⟩ ∧
      (2 : Int) + -32768 < 0 ∧ (2 : Int) * 0 - (2 + -32768) < 32767 - 0 ∧
      (updateCircles (uniform 32767 200 0 ⟨2, 50⟩ ⟨-32768, 0⟩)).velocity[0]? =
        some ⟨-32768, 0⟩ ∧
      (-32768 : Int) ≠ - -32768) ∧
    (WellTyped (uniform 32767 200 (-1) ⟨-32768, 50⟩ ⟨-1, 0⟩) ∧
      hasCircle (uniform 32767 200 (-1) ⟨-32768, 50⟩ ⟨-1, 0⟩) 0 (-1) ⟨-32768, 50⟩ ⟨-1, 0⟩ ∧
      (-32768 : Int) + -1 < -1 ∧ (2 : Int) * -1 - (-32768 + -1) < 32767 - -1 ∧
      (updateCircles (uniform 32767 200 (-1) ⟨-32768, 50⟩ ⟨-1, 0⟩)).velocity[0]? =
        some ⟨-1, 0⟩ ∧
      (-1 : Int) ≠ - -1) := by
  have h1 := hasCircle_updateCircles
    (hasCircle_uniform 32767 200 0 ⟨2, 50⟩ ⟨-32768, 0⟩ 0 (by decide))
  have e1 : (updateCircle 32767 200 0 ⟨2, 50⟩ ⟨-32768, 0⟩).2 = ⟨-32768, 0⟩ := by decide
  have h2 := hasCircle_updateCircles
    (hasCircle_uniform 32767 200 (-1) ⟨-32768, 50⟩ ⟨-1, 0⟩ 0 (by decide))
  have e2 : (updateCircle 32767 200 (-1) ⟨-32768, 50⟩ ⟨-1, 0⟩).2 = ⟨-1, 0⟩ := by decide
  refine ⟨⟨wellTyped_uniform _ _ _ _ _ (by decide) (by decide) (by decide) (by decide)
      (by decide), hasCircle_uniform _ _ _ _ _ 0 (by decide), by decide, by decide, ?_,
      by decide⟩,
    wellTyped_uniform _ _ _ _ _ (by decide) (by decide) (by decide) (by decide) (by decide),
    hasCircle_uniform _ _ _ _ _ 0 (by decide), by decide, by decide, ?_, by decide⟩
  · rw [h1.2.2.2]; exact congrArg some e1
  · rw [h2.2.2.2]; exact congrArg some e2

/-! ## Reflection at the right wall -/

/-- C4 (amended): right boundary rule.  With all cells holding 16-bit
values and `q = position.x + velocity.x` for the values before the step:
if `q ≥ radius` and `q ≥ width - radius`, and `q`,
`2 * (width - radius) - q` and the negated velocity stay in the 16-bit
range (`q ≤ 32767`, `2 * (width - radius) - q ≥ -32768`,
`velocity.x ≠ -32768`), then after one `updateCircles` call
`position.x = 2 * (width - radius) - q` and `velocity.x` is negated; in
particular a circle landing exactly on `q = width - radius` stays there with
`velocity.x` negated, whereas one landing exactly on
`q = radius < width - radius` is not reflected. -/
theorem right_boundary_rule (s : State) (i : Nat) (r : Int) (p v : Coordinate2D)
    (hs : WellTyped s) (hc : hasCircle s i r p v) :
    ∃ p' v', (updateCircles s).position[i]? = some p' ∧
      (updateCircles s).velocity[i]? = some v' ∧
      (r ≤ p.x + v.x → s.canvasWidth - r ≤ p.x + v.x → p.x + v.x ≤ 32767 →
        -32768 ≤ 2 * (s.canvasWidth - r) - (p.x + v.x) → v.x ≠ -32768 →
        p'.x = 2 * (s.canvasWidth - r) - (p.x + v.x) ∧ v'.x = -v.x) ∧
      (p.x + v.x = s.canvasWidth - r → r ≤ p.x + v.x → p.x + v.x ≤ 32767 →
        v.x ≠ -32768 → p'.x = s.canvasWidth - r ∧ v'.x = -v.x) ∧
      (p.x + v.x = r → r < s.canvasWidth - r → p'.x = r ∧ v'.x = v.x) := by
  obtain ⟨-, -, hr, -, -, hvx, -⟩ := hs.circle hc
  obtain ⟨p', v', h1, h2, hx, -⟩ := updateCircles_x hc
  have hr' := hr
  unfold isShort at hr'
  refine ⟨p', v', h1, h2, ?_, ?_, ?_⟩
  · intro a1 a2 a3 a4 a5
    rw [bounce_right s.canvasWidth r p.x v.x hr a1 a2 a3 a4 (isShort_neg hvx a5)] at hx
    exact ⟨congrArg Prod.fst hx, congrArg Prod.snd hx⟩
  · intro a1 a2 a3 a5
    rw [bounce_right s.canvasWidth r p.x v.x hr a2 (by omega) a3 (by omega)
      (isShort_neg hvx a5)] at hx
    have e1 := congrArg Prod.fst hx
    simp only at e1
    exact ⟨by omega, congrArg Prod.snd hx⟩
  · intro a1 a2
    rw [bounce_free s.canvasWidth r p.x v.x hr (by omega) (by omega) (by omega)] at hx
    have e1 := congrArg Prod.fst hx
    simp only at e1
    exact ⟨by omega, congrArg Prod.snd hx⟩

/-- Instances of C4 (amended) on a 200 by 200 canvas with radius 10: from
`x = 185` with velocity 9 to `186` with velocity `-9`; from `x = 185` with
velocity 5 to `190 = width - radius` with velocity `-5`; from `x = 15` with
velocity `-5` to `10 = radius` with the velocity unchanged. -/
theorem right_boundary_rule_witness :
    (WellTyped (uniform 200 200 10 ⟨185, 50⟩ ⟨9, 0⟩) ∧
      hasCircle (uniform 200 200 10 ⟨185, 50⟩ ⟨9, 0⟩) 0 10 ⟨185, 50⟩ ⟨9, 0⟩ ∧
      ∃ p' v', (updateCircles (uniform 200 200 10 ⟨185, 50⟩ ⟨9, 0⟩)).position[0]? = some p' ∧
        (updateCircles (uniform 200 200 10 ⟨185, 50⟩ ⟨9, 0⟩)).velocity[0]? = some v' ∧
        p'.x = 2 * (200 - 10) - (185 + 9) ∧ v'.x = -9) ∧
    (WellTyped (uniform 200 200 10 ⟨185, 50⟩ ⟨5, 0⟩) ∧
      hasCircle (uniform 200 200 10 ⟨185, 50⟩ ⟨5, 0⟩) 0 10 ⟨185, 50⟩ ⟨5, 0⟩ ∧
      ∃ p' v', (updateCircles (uniform 200 200 10 ⟨185, 50⟩ ⟨5, 0⟩)).position[0]? = some p' ∧
        (updateCircles (uniform 200 200 10 ⟨185, 50⟩ ⟨5, 0⟩)).velocity[0]? = some v' ∧
        p'.x = 200 - 10 ∧ v'.x = -5) ∧
    (WellTyped (uniform 200 200 10 ⟨15, 50⟩ ⟨-5, 0⟩) ∧
      hasCircle (uniform 200 200 10 ⟨15, 50⟩ ⟨-5, 0⟩) 0 10 ⟨15, 50⟩ ⟨-5, 0⟩ ∧
      ∃ p' v', (updateCircles (uniform 200 200 10 ⟨15, 50⟩ ⟨-5, 0⟩)).position[0]? = some p' ∧
        (updateCircles (uniform 200 200 10 ⟨15, 50⟩ ⟨-5, 0⟩)).velocity[0]? = some v' ∧
        p'.x = 10 ∧ v'.x = -5) := by
  refine ⟨⟨(wellTyped_uniform _ _ _ _ _ (by decide) (by decide) (by decide) (by decide) (by decide)), (hasCircle_uniform _ _ _ _ _ 0 (by decide)), ?_⟩, ⟨(wellTyped_uniform _ _ _ _ _ (by decide) (by decide) (by decide) (by decide) (by decide)), (hasCircle_uniform _ _ _ _ _ 0 (by decide)), ?_⟩, (wellTyped_uniform _ _ _ _ _ (by decide) (by decide) (by decide) (by decide) (by decide)), (hasCircle_uniform _ _ _ _ _ 0 (by decide)), ?_⟩
  · obtain ⟨p', v', h1, h2, h3, -, -⟩ :=
      right_boundary_rule (uniform 200 200 10 ⟨185, 50⟩ ⟨9, 0⟩) 0 10 ⟨185, 50⟩ ⟨9, 0⟩ (wellTyped_uniform _ _ _ _ _ (by decide) (by decide) (by decide) (by decide) (by decide)) (hasCircle_uniform _ _ _ _ _ 0 (by decide))
    exact ⟨p', v', h1, h2, h3 (by decide) (by decide) (by decide) (by decide) (by decide)⟩
  · obtain ⟨p', v', h1, h2, -, h3, -⟩ :=
      right_boundary_rule (uniform 200 200 10 ⟨185, 50⟩ ⟨5, 0⟩) 0 10 ⟨185, 50⟩ ⟨5, 0⟩ (wellTyped_uniform _ _ _ _ _ (by decide) (by decide) (by decide) (by decide) (by decide)) (hasCircle_uniform _ _ _ _ _ 0 (by decide))
    exact ⟨p', v', h1, h2, h3 (by decide) (by decide) (by decide) (by decide)⟩
  · obtain ⟨p', v', h1, h2, -, -, h3⟩ :=
      right_boundary_rule (uniform 200 200 10 ⟨15, 50⟩ ⟨-5, 0⟩) 0 10 ⟨15, 50⟩ ⟨-5, 0⟩ (wellTyped_uniform _ _ _ _ _ (by decide) (by decide) (by decide) (by decide) (by decide)) (hasCircle_uniform _ _ _ _ _ 0 (by decide))
    exact ⟨p', v', h1, h2, h3 (by decide) (by decide)⟩

/-- C4 as stated fails.  (1) Radius 10 at `(32767, 50)` with velocity
`(1, 0)` on a 100 by 200 canvas: `q = 32768` is at least `radius` and
`width - radius`, but the sum wraps and the call leaves `x = -32748`, not
`2 * 90 - 32768`.  (2) Radius `-1` at `(32767, 50)` with velocity
`(-32768, 0)` on a `-2` by 200 canvas: `q = -1 = radius = width - radius`,
and `velocity.x` is `-32768` after the call, not its negation.  (3) Radius 0
at `(0, 50)` with velocity `(1, 0)` on a `-32768` by 200 canvas: `q = 1`,
and the call leaves `x = -1`, not `2 * (-32768) - 1`.  (4) Radius 10 at
`(11, 50)` with velocity `(-1, 0)` on a 20 by 200 canvas lands exactly on
`q = radius` and is reflected (velocity `1`), because `radius` is also
`width - radius`. -/
theorem right_boundary_rule_fails_as_stated :
    (WellTyped (uniform 100 200 10 ⟨32767, 50⟩ ⟨1, 0⟩) ∧
      hasCircle (uniform 100 200 10 ⟨32767, 50⟩ ⟨1, 0⟩) 0 10 ⟨32767, 50⟩ ⟨1, 0⟩ ∧
      (10 : Int) ≤ 32767 + 1 ∧ (100 : Int) - 10 ≤ 32767 + 1 ∧
      (updateCircles (uniform 100 200 10 ⟨32767, 50⟩ ⟨1, 0⟩)).position[0]? =
        some ⟨-32748, 50⟩ ∧
      (-32748 : Int) ≠ 2 * (100 - 10) - (32767 + 1)) ∧
    (WellTyped (uniform (-2) 200 (-1) ⟨32767, 50⟩ ⟨-32768, 0⟩) ∧
      hasCircle (uniform (-2) 200 (-1) ⟨32767, 50⟩ ⟨-32768, 0⟩) 0 (-1) ⟨32767, 50⟩
        ⟨-32768, 0⟩ ∧
      (-1 : Int) ≤ 32767 + -32768 ∧ (-2 : Int) - -1 ≤ 32767 + -32768 ∧
      (updateCircles (uniform (-2) 200 (-1) ⟨32767, 50⟩ ⟨-32768, 0⟩)).velocity[0]? =
        some ⟨-32768, 0⟩ ∧
      (-32768 : Int) ≠ - -32768) ∧
    (WellTyped (uniform (-32768) 200 0 ⟨0, 50⟩ ⟨1, 0⟩) ∧
      hasCircle (uniform (-32768) 200 0 ⟨0, 50⟩ ⟨1, 0⟩) 0 0 ⟨0, 50⟩ ⟨1, 0⟩ ∧
      (0 : Int) ≤ 0 + 1 ∧ (-32768 : Int) - 0 ≤ 0 + 1 ∧
      (updateCircles (uniform (-32768) 200 0 ⟨0, 50⟩ ⟨1, 0⟩)).position[0]? =
        some ⟨-1, 50⟩ ∧
      (-1 : Int) ≠ 2 * (-32768 - 0) - (0 + 1)) ∧
    (WellTyped (uniform 20 200 10 ⟨11, 50⟩ ⟨-1, 0⟩) ∧
      hasCircle (uniform 20 200 10 ⟨11, 50⟩ ⟨-1, 0⟩) 0 10 ⟨11, 50⟩ ⟨-1, 0⟩ ∧
      (11 : Int) + -1 = 10 ∧
      (updateCircles (uniform 20 200 10 ⟨11, 50⟩ ⟨-1, 0⟩)).velocity[0]? = some ⟨1, 0⟩ ∧
      (1 : Int) ≠ -1) := by
  have h1 := hasCircle_updateCircles
    (hasCircle_uniform 100 200 10 ⟨32767, 50⟩ ⟨1, 0⟩ 0 (by decide))
  have e1 : (updateCircle 100 200 10 ⟨32767, 50⟩ ⟨1, 0⟩).1 = ⟨-32748, 50⟩ := by decide
  have h2 := hasCircle_updateCircles
    (hasCircle_uniform (-2) 200 (-1) ⟨32767, 50⟩ ⟨-32768, 0⟩ 0 (by decide))
  have e2 : (updateCircle (-2) 200 (-1) ⟨32767, 50⟩ ⟨-32768, 0⟩).2 = ⟨-32768, 0⟩ := by decide
  have h3 := hasCircle_updateCircles
    (hasCircle_uniform (-32768) 200 0 ⟨0, 50⟩ ⟨1, 0⟩ 0 (by decide))
  have e3 : (updateCircle (-32768) 200 0 ⟨0, 50⟩ ⟨1, 0⟩).1 = ⟨-1, 50⟩ := by decide
  have h4 := hasCircle_updateCircles
    (hasCircle_uniform 20 200 10 ⟨11, 50⟩ ⟨-1, 0⟩ 0 (by decide))
  have e4 : (updateCircle 20 200 10 ⟨11, 50⟩ ⟨-1, 0⟩).2 = ⟨1, 0⟩ := by decide
  refine ⟨⟨(wellTyped_uniform _ _ _ _ _ (by decide) (by decide) (by decide) (by decide) (by decide)), (hasCircle_uniform _ _ _ _ _ 0 (by decide)), by decide, by decide, ?_, by decide⟩,
    ⟨(wellTyped_uniform _ _ _ _ _ (by decide) (by decide) (by decide) (by decide) (by decide)), (hasCircle_uniform _ _ _ _ _ 0 (by decide)), by decide, by decide, ?_, by decide⟩,
    ⟨(wellTyped_uniform _ _ _ _ _ (by decide) (by decide) (by decide) (by decide) (by decide)), (hasCircle_uniform _ _ _ _ _ 0 (by decide)), by decide, by decide, ?_, by decide⟩,
    (wellTyped_uniform _ _ _ _ _ (by decide) (by decide) (by decide) (by decide) (by decide)), (hasCircle_uniform _ _ _ _ _ 0 (by decide)), by decide, ?_, by decide⟩
  · rw [h1.2.2.1]; exact congrArg some e1
  · rw [h2.2.2.2]; exact congrArg some e2
  · rw [h3.2.2.1]; exact congrArg some e3
  · rw [h4.2.2.2]; exact congrArg some e4

/-! ## Free motion -/

/-- C5: free motion.  For every circle and canvas (cells holding values of
their C types, the radius non-negative as the code stores it: 0 at program
start, 10 to 49 after `initCircles`), if
`radius ≤ position.x + velocity.x < width - radius` and
`radius ≤ position.y + velocity.y < height - radius` for the values before
the step, then after one `updateCircles` call the position is the old
position plus the old velocity on both axes and the velocity is
unchanged. -/
theorem free_motion (s : State) (i : Nat) (r : Int) (p v : Coordinate2D)
    (hs : WellTyped s) (hc : hasCircle s i r p v) (hr0 : 0 ≤ r)
    (hx : r ≤ p.x + v.x ∧ p.x + v.x < s.canvasWidth - r)
    (hy : r ≤ p.y + v.y ∧ p.y + v.y < s.canvasHeight - r) :
    (updateCircles s).position[i]? = some ⟨p.x + v.x, p.y + v.y⟩ ∧
      (updateCircles s).velocity[i]? = some v := by
  obtain ⟨hw, hh, hr, -, -, -, -⟩ := hs.circle hc
  obtain ⟨-, -, h1, h2⟩ := hasCircle_updateCircles hc
  have hox : p.x + v.x ≤ 32767 := by unfold isShort at hw; omega
  have hoy : p.y + v.y ≤ 32767 := by unfold isShort at hh; omega
  rw [h1, h2, updateCircle_eq_bounce, bounce_free s.canvasWidth r p.x v.x hr hx.1 hx.2 hox,
    bounce_free s.canvasHeight r p.y v.y hr hy.1 hy.2 hoy]
  exact ⟨rfl, rfl⟩

/-- Instance of C5: radius 10 at `(50, 60)` with velocity `(7, -3)` on a 200
by 200 canvas. -/
theorem free_motion_witness :
    WellTyped (uniform 200 200 10 ⟨50, 60⟩ ⟨7, -3⟩) ∧
      hasCircle (uniform 200 200 10 ⟨50, 60⟩ ⟨7, -3⟩) 0 10 ⟨50, 60⟩ ⟨7, -3⟩ ∧
      (0 : Int) ≤ 10 ∧
      ((10 : Int) ≤ 50 + 7 ∧ (50 : Int) + 7 < 200 - 10) ∧
      ((10 : Int) ≤ 60 + -3 ∧ (60 : Int) + -3 < 200 - 10) ∧
      (updateCircles (uniform 200 200 10 ⟨50, 60⟩ ⟨7, -3⟩)).position[0]? =
        some ⟨50 + 7, 60 + -3⟩ ∧
      (updateCircles (uniform 200 200 10 ⟨50, 60⟩ ⟨7, -3⟩)).velocity[0]? = some ⟨7, -3⟩ :=
  ⟨(wellTyped_uniform _ _ _ _ _ (by decide) (by decide) (by decide) (by decide) (by decide)), (hasCircle_uniform _ _ _ _ _ 0 (by decide)), by decide, by decide, by decide,
    free_motion (uniform 200 200 10 ⟨50, 60⟩ ⟨7, -3⟩) 0 10 ⟨50, 60⟩ ⟨7, -3⟩ (wellTyped_uniform _ _ _ _ _ (by decide) (by decide) (by decide) (by decide) (by decide)) (hasCircle_uniform _ _ _ _ _ 0 (by decide))
      (by decide) (by decide) (by decide)⟩

/-! ## What `updateCircles` leaves alone -/

/-- C6: `updateCircles` changes only positions and velocities.  For every
state and every number `n` of calls the radius and colour arrays, hence
`radius[i]` and `color[i]` (red, green, blue) for every index `i`, and
`canvasWidth` and `canvasHeight` are equal to their values before. -/
theorem updateCircles_changes_only_motion (s : State) (n : Nat) :
    (updateCircles^[n] s).radius = s.radius ∧ (updateCircles^[n] s).color = s.color ∧
      (updateCircles^[n] s).canvasWidth = s.canvasWidth ∧
      (updateCircles^[n] s).canvasHeight = s.canvasHeight ∧
      ∀ i : Nat, (updateCircles^[n] s).radius[i]? = s.radius[i]? ∧
        (updateCircles^[n] s).color[i]? = s.color[i]? ∧
        ((updateCircles^[n] s).color[i]?.map fun c => c.red) = (s.color[i]?.map fun c => c.red) ∧
        ((updateCircles^[n] s).color[i]?.map fun c => c.green) =
          (s.color[i]?.map fun c => c.green) ∧
        ((updateCircles^[n] s).color[i]?.map fun c => c.blue) =
          (s.color[i]?.map fun c => c.blue) := by
  obtain ⟨h1, h2, h3, h4, -, -⟩ := iterate_updateCircles_frame n s
  refine ⟨h1, h2, h3, h4, fun i => ?_⟩
  rw [h1, h2]
  exact ⟨rfl, rfl, rfl, rfl, rfl⟩

/-! ## The velocity range -/

theorem updatePair_speed (w h r : Int) (pv : Coordinate2D × Coordinate2D)
    (hv : (-10 ≤ pv.2.x ∧ pv.2.x ≤ 10) ∧ (-10 ≤ pv.2.y ∧ pv.2.y ≤ 10)) (n : Nat) :
    (-10 ≤ ((updatePair w h r)^[n] pv).2.x ∧ ((updatePair w h r)^[n] pv).2.x ≤ 10) ∧
      (-10 ≤ ((updatePair w h r)^[n] pv).2.y ∧ ((updatePair w h r)^[n] pv).2.y ≤ 10) := by
  induction n with
  | zero => exact hv
  | succ n ih =>
    rw [Function.iterate_succ_apply']
    simp only [updatePair, updateCircle_eq_bounce]
    exact ⟨bounce_speed w r _ _ ih.1, bounce_speed h r _ _ ih.2⟩

/-- C9 (amended): velocity range at all times.  For every circle whose
velocity components are in `[-10, 9]` (as after `initCircles`), after any
number of `updateCircles` calls each velocity component is in `[-10, 10]`:
a reflection turns `-10` into `10`. -/
theorem velocity_range_preserved (s : State) (i : Nat) (r : Int) (p v : Coordinate2D)
    (hc : hasCircle s i r p v) (hvx : -10 ≤ v.x ∧ v.x ≤ 9) (hvy : -10 ≤ v.y ∧ v.y ≤ 9)
    (n : Nat) :
    ∃ v', (updateCircles^[n] s).velocity[i]? = some v' ∧
      (-10 ≤ v'.x ∧ v'.x ≤ 10) ∧ (-10 ≤ v'.y ∧ v'.y ≤ 10) := by
  obtain ⟨-, -, -, hv'⟩ := hasCircle_iterate hc n
  exact ⟨_, hv', updatePair_speed s.canvasWidth s.canvasHeight r (p, v)
    ⟨⟨hvx.1, hvx.2.trans (by decide)⟩, hvy.1, hvy.2.trans (by decide)⟩ n⟩

/-- Instance of C9 (amended): radius 10 at `(10, 50)` with velocity
`(-10, 9)` on a 200 by 200 canvas, after 5 calls. -/
theorem velocity_range_preserved_witness :
    hasCircle (uniform 200 200 10 ⟨10, 50⟩ ⟨-10, 9⟩) 0 10 ⟨10, 50⟩ ⟨-10, 9⟩ ∧
      ∃ v', (updateCircles^[5] (uniform 200 200 10 ⟨10, 50⟩ ⟨-10, 9⟩)).velocity[0]? = some v' ∧
        (-10 ≤ v'.x ∧ v'.x ≤ 10) ∧ (-10 ≤ v'.y ∧ v'.y ≤ 10) :=
  ⟨(hasCircle_uniform _ _ _ _ _ 0 (by decide)), velocity_range_preserved (uniform 200 200 10 ⟨10, 50⟩ ⟨-10, 9⟩) 0 10 ⟨10, 50⟩
    ⟨-10, 9⟩ (hasCircle_uniform _ _ _ _ _ 0 (by decide)) (by decide) (by decide) 5⟩

/-- C9 as stated fails: radius 10 at `(10, 50)` with velocity `(-10, 0)` on
a 200 by 200 canvas, a state `initCircles` can produce, is reflected at the
left wall by one call and then has `velocity.x = 10`, outside `[-10, 9]`. -/
theorem velocity_range_fails_as_stated :
    hasCircle (uniform 200 200 10 ⟨10, 50⟩ ⟨-10, 0⟩) 0 10 ⟨10, 50⟩ ⟨-10, 0⟩ ∧
      inInitRange 200 200 10 ⟨10, 50⟩ ⟨-10, 0⟩ ∧
      (updateCircles (uniform 200 200 10 ⟨10, 50⟩ ⟨-10, 0⟩)).velocity[0]? = some ⟨10, 0⟩ ∧
      ¬ ((-10 : Int) ≤ 10 ∧ (10 : Int) ≤ 9) := by
  have h := hasCircle_updateCircles
    (hasCircle_uniform 200 200 10 ⟨10, 50⟩ ⟨-10, 0⟩ 0 (by decide))
  have e : (updateCircle 200 200 10 ⟨10, 50⟩ ⟨-10, 0⟩).2 = ⟨10, 0⟩ := by decide
  refine ⟨(hasCircle_uniform _ _ _ _ _ 0 (by decide)), by decide, ?_, by decide⟩
  rw [h.2.2.2]; exact congrArg some e

/-! ## The loop of `initCircles` -/

theorem initCirclesBody_eq (rand : Nat → Int) (s : State) (k i : Nat) :
    initCirclesBody rand (s, k) i =
      if s.canvasWidth - 2 * initRadius rand k = 0 ∨
          s.canvasHeight - 2 * initRadius rand k = 0 then none
      else some
        ({ s with
            radius := s.radius.set i (initRadius rand k)
            color := s.color.set i (initColor rand k)
            position := s.position.set i (initPosition rand k s.canvasWidth s.canvasHeight)
            velocity := s.velocity.set i (initVelocity rand k) },
          k + 8) := by
  unfold initCirclesBody getRand initRadius initColor initPosition initVelocity
  by_cases h1 : s.canvasWidth - 2 * toShort (10 + Int.tmod (rand k) 40) = 0
  · simp [h1]
  · by_cases h2 : s.canvasHeight - 2 * toShort (10 + Int.tmod (rand k) 40) = 0
    · simp [h1, h2]
    · simp [h1, h2, initRadius]

theorem initLoop_succ (rand : Nat → Int) (n : Nat) (st : State × Nat) :
    initLoop rand (n + 1) st =
      (initLoop rand n st).bind fun x => initCirclesBody rand x n := by
  simp [initLoop, List.range_succ, List.foldlM_append]

theorem initLoop_sound (rand : Nat → Int) (s0 : State) (n : Nat) (s' : State) (k' : Nat)
    (h : initLoop rand n (s0, 0) = some (s', k')) :
    k' = 8 * n ∧ s'.canvasWidth = s0.canvasWidth ∧ s'.canvasHeight = s0.canvasHeight ∧
      (s'.color.length = s0.color.length ∧ s'.position.length = s0.position.length ∧
        s'.velocity.length = s0.velocity.length ∧ s'.radius.length = s0.radius.length) ∧
      noZeroDivisor rand s0.canvasWidth s0.canvasHeight n ∧
      ∀ i, i < n →
        (i < s0.radius.length → s'.radius[i]? = some (initRadius rand (8 * i))) ∧
        (i < s0.color.length → s'.color[i]? = some (initColor rand (8 * i))) ∧
        (i < s0.position.length → s'.position[i]? =
          some (initPosition rand (8 * i) s0.canvasWidth s0.canvasHeight)) ∧
        (i < s0.velocity.length → s'.velocity[i]? = some (initVelocity rand (8 * i))) := by
  induction n generalizing s' k' with
  | zero =>
    simp [initLoop] at h
    obtain ⟨h1, h2⟩ := h
    subst h1 h2
    simp [noZeroDivisor]
  | succ n ih =>
    rw [initLoop_succ] at h
    rcases hst : initLoop rand n (s0, 0) with _ | ⟨s1, k1⟩
    · simp [hst] at h
    · obtain ⟨hk, hw, hh, ⟨l1, l2, l3, l4⟩, hz, hcell⟩ := ih s1 k1 hst
      rw [hst, Option.some_bind, initCirclesBody_eq] at h
      split at h
      · exact absurd h (by simp)
      · rename_i hnz
        rw [hw, hh, hk] at hnz
        simp only [Option.some.injEq, Prod.mk.injEq] at h
        obtain ⟨hs, hk'⟩ := h
        subst hs
        refine ⟨by omega, hw, hh, ⟨?_, ?_, ?_, ?_⟩, ?_, ?_⟩
        · simpa using l1
        · simpa using l2
        · simpa using l3
        · simpa using l4
        · intro i hi
          by_cases hin : i < n
          · exact hz i hin
          · have : i = n := by omega
            subst this
            exact ⟨fun e => hnz (Or.inl e), fun e => hnz (Or.inr e)⟩
        · intro i hi
          by_cases hin : i < n
          · have hne : n ≠ i := by omega
            obtain ⟨c1, c2, c3, c4⟩ := hcell i hin
            simp only [List.getElem?_set_ne hne]
            exact ⟨c1, c2, c3, c4⟩
          · have : i = n := by omega
            subst this
            rw [hk, hw, hh]
            refine ⟨fun hl => ?_, fun hl => ?_, fun hl => ?_, fun hl => ?_⟩
            · exact List.getElem?_set_self (by omega)
            · exact List.getElem?_set_self (by omega)
            · exact List.getElem?_set_self (by omega)
            · exact List.getElem?_set_self (by omega)

theorem initLoop_total (rand : Nat → Int) (s0 : State) (n : Nat)
    (hz : noZeroDivisor rand s0.canvasWidth s0.canvasHeight n) :
    ∃ st, initLoop rand n (s0, 0) = some st := by
  induction n with
  | zero => exact ⟨(s0, 0), by simp [initLoop]⟩
  | succ n ih =>
    obtain ⟨⟨s1, k1⟩, hst⟩ := ih (fun i hi => hz i (by omega))
    obtain ⟨hk, hw, hh, -, -, -⟩ := initLoop_sound rand s0 n s1 k1 hst
    have hn := hz n (by omega)
    rw [initLoop_succ, hst, Option.some_bind, initCirclesBody_eq, hk, hw, hh]
    simp [hn.1, hn.2]

/-! ## `initCircles` as a whole -/

theorem initCircles_eq (rand : Nat → Int) (s : State) (width height : Int) :
    initCircles rand s width height =
      (initLoop rand NUM_CIRCLES
        ({ s with canvasWidth := toShort width, canvasHeight := toShort height }, 0)).map
        Prod.fst := rfl

theorem initCircles_sound (rand : Nat → Int) (s : State) (width height : Int) (s' : State)
    (h : initCircles rand s width height = some s') :
    s'.canvasWidth = toShort width ∧ s'.canvasHeight = toShort height ∧
      (s'.color.length = s.color.length ∧ s'.position.length = s.position.length ∧
        s'.velocity.length = s.velocity.length ∧ s'.radius.length = s.radius.length) ∧
      noZeroDivisor rand (toShort width) (toShort height) NUM_CIRCLES ∧
      ∀ i, i < NUM_CIRCLES →
        (i < s.radius.length → s'.radius[i]? = some (initRadius rand (8 * i))) ∧
        (i < s.color.length → s'.color[i]? = some (initColor rand (8 * i))) ∧
        (i < s.position.length → s'.position[i]? =
          some (initPosition rand (8 * i) (toShort width) (toShort height))) ∧
        (i < s.velocity.length → s'.velocity[i]? = some (initVelocity rand (8 * i))) := by
  rw [initCircles_eq] at h
  rcases hst : initLoop rand NUM_CIRCLES
      ({ s with canvasWidth := toShort width, canvasHeight := toShort height }, 0) with
    _ | ⟨s1, k1⟩
  · simp [hst] at h
  · rw [hst] at h
    simp only [Option.map_some', Option.some.injEq] at h
    subst h
    obtain ⟨-, h2, h3, h4, h5, h6⟩ := initLoop_sound rand _ NUM_CIRCLES s1 k1 hst
    exact ⟨h2, h3, h4, h5, h6⟩

theorem initCircles_total (rand : Nat → Int) (s : State) (width height : Int)
    (hz : noZeroDivisor rand (toShort width) (toShort height) NUM_CIRCLES) :
    ∃ s', initCircles rand s width height = some s' := by
  obtain ⟨⟨s1, k1⟩, hst⟩ := initLoop_total rand
    { s with canvasWidth := toShort width, canvasHeight := toShort height } NUM_CIRCLES hz
  exact ⟨s1, by rw [initCircles_eq, hst]; rfl⟩

/-! ## The ranges `initCircles` draws from -/

theorem getRand_range (r max : Int) (hr : 0 ≤ r) (hmax : 0 < max) :
    ∃ g, getRand r max = some g ∧ 0 ≤ g ∧ g ≤ max - 1 := by
  refine ⟨Int.tmod r max, by simp [getRand, hmax.ne'], ?_, ?_⟩
  · rw [Int.tmod_eq_emod hr hmax.le]; exact Int.emod_nonneg r hmax.ne'
  · rw [Int.tmod_eq_emod hr hmax.le]
    have := Int.emod_lt_of_pos r hmax
    omega

theorem initRadius_range (rand : Nat → Int) (hrand : ∀ k, 0 ≤ rand k) (k : Nat) :
    10 ≤ initRadius rand k ∧ initRadius rand k ≤ 49 := by
  unfold initRadius toShort
  rw [Int.tmod_eq_emod (hrand k) (by decide)]
  omega

theorem initColor_range (rand : Nat → Int) (k : Nat) :
    (0 ≤ (initColor rand k).red ∧ (initColor rand k).red ≤ 255) ∧
      (0 ≤ (initColor rand k).green ∧ (initColor rand k).green ≤ 255) ∧
      (0 ≤ (initColor rand k).blue ∧ (initColor rand k).blue ≤ 255) := by
  unfold initColor toUChar
  dsimp only
  omega

theorem initVelocity_range (rand : Nat → Int) (hrand : ∀ k, 0 ≤ rand k) (k : Nat) :
    (-10 ≤ (initVelocity rand k).x ∧ (initVelocity rand k).x ≤ 9) ∧
      (-10 ≤ (initVelocity rand k).y ∧ (initVelocity rand k).y ≤ 9) := by
  unfold initVelocity toShort
  dsimp only
  rw [Int.tmod_eq_emod (hrand (k + 6)) (by decide),
    Int.tmod_eq_emod (hrand (k + 7)) (by decide)]
  omega

theorem drawn_coordinate_range (R g dim : Int) (hR : 10 ≤ R ∧ R ≤ 49) (hdim : isShort dim)
    (hg : 0 ≤ g ∧ g ≤ dim - 2 * R - 1) :
    R ≤ toShort (R + toShort g) ∧ toShort (R + toShort g) < dim - R := by
  unfold isShort at hdim
  rw [toShort_eq_self (z := g) ⟨by omega, by omega⟩,
    toShort_eq_self (z := R + g) ⟨by omega, by omega⟩]
  omega

theorem initPosition_range (rand : Nat → Int) (hrand : ∀ k, 0 ≤ rand k) (k : Nat)
    (w h : Int) (hw : isShort w) (hh : isShort h) (hw98 : w > 98) (hh98 : h > 98) :
    (initRadius rand k ≤ (initPosition rand k w h).x ∧
        (initPosition rand k w h).x < w - initRadius rand k) ∧
      (initRadius rand k ≤ (initPosition rand k w h).y ∧
        (initPosition rand k w h).y < h - initRadius rand k) := by
  have hR := initRadius_range rand hrand k
  obtain ⟨gx, ex, hgx⟩ :=
    getRand_range (rand (k + 4)) (w - 2 * initRadius rand k) (hrand _) (by omega)
  obtain ⟨gy, ey, hgy⟩ :=
    getRand_range (rand (k + 5)) (h - 2 * initRadius rand k) (hrand _) (by omega)
  have ex' : Int.tmod (rand (k + 4)) (w - 2 * initRadius rand k) = gx := by
    have : w - 2 * initRadius rand k ≠ 0 := by omega
    simpa [getRand, this] using ex
  have ey' : Int.tmod (rand (k + 5)) (h - 2 * initRadius rand k) = gy := by
    have : h - 2 * initRadius rand k ≠ 0 := by omega
    simpa [getRand, this] using ey
  unfold initPosition
  dsimp only
  rw [ex', ey']
  exact ⟨drawn_coordinate_range _ gx w hR hw ⟨hgx.1, by omega⟩,
    drawn_coordinate_range _ gy h hR hh ⟨hgy.1, by omega⟩⟩

theorem noZeroDivisor_of_large (rand : Nat → Int) (hrand : ∀ k, 0 ≤ rand k) (w h : Int)
    (hw98 : w > 98) (hh98 : h > 98) (n : Nat) : noZeroDivisor rand w h n := by
  intro i _
  have hR := initRadius_range rand hrand (8 * i)
  constructor <;> omega

theorem sampleRand_nonneg (k : Nat) : 0 ≤ sampleRand k := by
  unfold sampleRand; omega

theorem hasDeclaredSizes_uniform (width height r : Int) (p v : Coordinate2D) :
    hasDeclaredSizes (uniform width height r p v) := by
  simp [hasDeclaredSizes, uniform]

/-! ## The state after `initCircles` -/

/-- C7: initial position range.  For every sequence of non-negative
`rand()` results and every `width` and `height` in the 16-bit signed range
with `width > 98` and `height > 98`, `initCircles(width, height)` returns,
and afterwards every circle `i` satisfies
`radius[i] ≤ position[i].x < width - radius[i]` and
`radius[i] ≤ position[i].y < height - radius[i]`. -/
theorem initial_position_range (rand : Nat → Int) (hrand : ∀ k, 0 ≤ rand k) (s : State)
    (hs : hasDeclaredSizes s) (width height : Int) (hw : isShort width)
    (hh : isShort height) (hw98 : width > 98) (hh98 : height > 98) :
    ∃ s', initCircles rand s width height = some s' ∧
      ∀ i, i < NUM_CIRCLES → ∃ r p, s'.radius[i]? = some r ∧ s'.position[i]? = some p ∧
        (r ≤ p.x ∧ p.x < width - r) ∧ (r ≤ p.y ∧ p.y < height - r) := by
  have ew := toShort_eq_self hw
  have eh := toShort_eq_self hh
  obtain ⟨s', hs'⟩ := initCircles_total rand s width height
    (noZeroDivisor_of_large rand hrand _ _ (by rw [ew]; exact hw98) (by rw [eh]; exact hh98) _)
  obtain ⟨-, -, -, -, hcell⟩ := initCircles_sound rand s width height s' hs'
  obtain ⟨-, l2, -, l4⟩ := hs
  refine ⟨s', hs', fun i hi => ?_⟩
  obtain ⟨c1, -, c3, -⟩ := hcell i hi
  rw [ew, eh] at c3
  exact ⟨_, _, c1 (by omega), c3 (by omega),
    initPosition_range rand hrand (8 * i) width height hw hh hw98 hh98⟩

/-- Instance of C7: a 640 by 480 canvas, the zero-initialised arrays and
the sample sequence of `rand()` results. -/
theorem initial_position_range_witness :
    (∀ k, 0 ≤ sampleRand k) ∧ hasDeclaredSizes zeroState ∧
      isShort 640 ∧ isShort 480 ∧
      ∃ s', initCircles sampleRand zeroState 640 480 = some s' ∧
        ∀ i, i < NUM_CIRCLES → ∃ r p, s'.radius[i]? = some r ∧ s'.position[i]? = some p ∧
          (r ≤ p.x ∧ p.x < 640 - r) ∧ (r ≤ p.y ∧ p.y < 480 - r) :=
  ⟨sampleRand_nonneg, hasDeclaredSizes_uniform _ _ _ _ _, by decide, by decide,
    initial_position_range sampleRand sampleRand_nonneg zeroState
      (hasDeclaredSizes_uniform _ _ _ _ _) 640 480 (by decide) (by decide) (by decide)
      (by decide)⟩

/-- C8: initial attribute ranges.  For every sequence of non-negative
`rand()` results and every `width` and `height`, after `initCircles` every
circle has its radius in `[10, 49]`, both velocity components in `[-10, 9]`
and every colour channel in `[0, 255]`; `initCircles` returns exactly when
no circle's diameter equals the stored canvas width or height (so that no
`getRand` divides by zero); and `getRand(max)` returns a value in
`[0, max - 1]` for every `max > 0`. -/
theorem initial_attribute_ranges (rand : Nat → Int) (hrand : ∀ k, 0 ≤ rand k) (s : State)
    (hs : hasDeclaredSizes s) (width height : Int) :
    (∀ s', initCircles rand s width height = some s' →
      ∀ i, i < NUM_CIRCLES → ∃ r v c, s'.radius[i]? = some r ∧ s'.velocity[i]? = some v ∧
        s'.color[i]? = some c ∧ (10 ≤ r ∧ r ≤ 49) ∧
        ((-10 ≤ v.x ∧ v.x ≤ 9) ∧ (-10 ≤ v.y ∧ v.y ≤ 9)) ∧
        ((0 ≤ c.red ∧ c.red ≤ 255) ∧ (0 ≤ c.green ∧ c.green ≤ 255) ∧
          (0 ≤ c.blue ∧ c.blue ≤ 255))) ∧
      ((∃ s', initCircles rand s width height = some s') ↔
        noZeroDivisor rand (toShort width) (toShort height) NUM_CIRCLES) ∧
      (∀ r max : Int, 0 ≤ r → 0 < max → ∃ g, getRand r max = some g ∧ 0 ≤ g ∧ g ≤ max - 1) := by
  obtain ⟨l1, -, l3, l4⟩ := hs
  refine ⟨fun s' hs' i hi => ?_, ⟨fun ⟨s', hs'⟩ => ?_, initCircles_total rand s width height⟩,
    getRand_range⟩
  · obtain ⟨-, -, -, -, hcell⟩ := initCircles_sound rand s width height s' hs'
    obtain ⟨c1, c2, -, c4⟩ := hcell i hi
    exact ⟨_, _, _, c1 (by omega), c4 (by omega), c2 (by omega),
      initRadius_range rand hrand _, initVelocity_range rand hrand _, initColor_range rand _⟩
  · exact (initCircles_sound rand s width height s' hs').2.2.2.1

/-- Instance of C8: a 640 by 480 canvas, the zero-initialised arrays and
the sample sequence of `rand()` results. -/
theorem initial_attribute_ranges_witness :
    (∀ k, 0 ≤ sampleRand k) ∧ hasDeclaredSizes zeroState ∧
      (∃ s', initCircles sampleRand zeroState 640 480 = some s') ∧
      (∀ s', initCircles sampleRand zeroState 640 480 = some s' →
        ∀ i, i < NUM_CIRCLES → ∃ r v c, s'.radius[i]? = some r ∧ s'.velocity[i]? = some v ∧
          s'.color[i]? = some c ∧ (10 ≤ r ∧ r ≤ 49) ∧
          ((-10 ≤ v.x ∧ v.x ≤ 9) ∧ (-10 ≤ v.y ∧ v.y ≤ 9)) ∧
          ((0 ≤ c.red ∧ c.red ≤ 255) ∧ (0 ≤ c.green ∧ c.green ≤ 255) ∧
            (0 ≤ c.blue ∧ c.blue ≤ 255))) :=
  ⟨sampleRand_nonneg, hasDeclaredSizes_uniform _ _ _ _ _,
    (initial_attribute_ranges sampleRand sampleRand_nonneg zeroState
      (hasDeclaredSizes_uniform _ _ _ _ _) 640 480).2.1.mpr
      (noZeroDivisor_of_large _ sampleRand_nonneg _ _ (by decide) (by decide) _),
    (initial_attribute_ranges sampleRand sampleRand_nonneg zeroState
      (hasDeclaredSizes_uniform _ _ _ _ _) 640 480).1⟩

/-! ## The number of circles -/

theorem hasDeclaredSizes_iterate {s : State} (hs : hasDeclaredSizes s) (n : Nat) :
    hasDeclaredSizes (updateCircles^[n] s) := by
  obtain ⟨h1, h2, -, -, h5, h6⟩ := iterate_updateCircles_frame n s
  obtain ⟨l1, l2, l3, l4⟩ := hs
  exact ⟨by rw [h2]; exact l1, h5.trans l2, h6.trans l3, by rw [h1]; exact l4⟩

/-- C10: the circle count is fixed.  `getNumCircles` returns 1000 in every
state; and when the arrays have their declared 1000 entries, the position,
colour and radius arrays still have exactly 1000 entries after any number
of `updateCircles` calls, and after `initCircles` with any arguments
followed by any number of `updateCircles` calls. -/
theorem circle_count_fixed (s : State) (hs : hasDeclaredSizes s) :
    (∀ t : State, getNumCircles t = 1000) ∧
      (∀ n : Nat, (getPosition (updateCircles^[n] s)).length = 1000 ∧
        (getColor (updateCircles^[n] s)).length = 1000 ∧
        (getRadius (updateCircles^[n] s)).length = 1000) ∧
      (∀ (rand : Nat → Int) (width height : Int) (s' : State),
        initCircles rand s width height = some s' →
        ∀ n : Nat, (getPosition (updateCircles^[n] s')).length = 1000 ∧
          (getColor (updateCircles^[n] s')).length = 1000 ∧
          (getRadius (updateCircles^[n] s')).length = 1000) := by
  refine ⟨fun _ => rfl, fun n => ?_, fun rand width height s' hs' n => ?_⟩
  · obtain ⟨l1, l2, -, l4⟩ := hasDeclaredSizes_iterate hs n
    exact ⟨l2, l1, l4⟩
  · obtain ⟨-, -, ⟨k1, k2, k3, k4⟩, -, -⟩ := initCircles_sound rand s width height s' hs'
    obtain ⟨l1, l2, l3, l4⟩ := hs
    obtain ⟨m1, m2, -, m4⟩ :=
      hasDeclaredSizes_iterate (s := s') ⟨k1.trans l1, k2.trans l2, k3.trans l3, k4.trans l4⟩ n
    exact ⟨m2, m1, m4⟩

/-- Instance of C10: the zero-initialised arrays; `initCircles(640, 480)`
returns there. -/
theorem circle_count_fixed_witness :
    hasDeclaredSizes zeroState ∧
      (∃ s', initCircles sampleRand zeroState 640 480 = some s') ∧
      (∀ t : State, getNumCircles t = 1000) ∧
      (∀ n : Nat, (getPosition (updateCircles^[n] zeroState)).length = 1000 ∧
        (getColor (updateCircles^[n] zeroState)).length = 1000 ∧
        (getRadius (updateCircles^[n] zeroState)).length = 1000) ∧
      (∀ (rand : Nat → Int) (width height : Int) (s' : State),
        initCircles rand zeroState width height = some s' →
        ∀ n : Nat, (getPosition (updateCircles^[n] s')).length = 1000 ∧
          (getColor (updateCircles^[n] s')).length = 1000 ∧
          (getRadius (updateCircles^[n] s')).length = 1000) :=
  ⟨hasDeclaredSizes_uniform _ _ _ _ _,
    initCircles_total _ _ _ _
      (noZeroDivisor_of_large _ sampleRand_nonneg _ _ (by decide) (by decide) _),
    circle_count_fixed zeroState (hasDeclaredSizes_uniform _ _ _ _ _)⟩

/-! ## Compounded reflection -/

theorem toShort_neg_neg {z : Int} (hz : isShort z) : toShort (-toShort (-z)) = z := by
  unfold isShort at hz; unfold toShort; omega

theorem bounce_both (dim r pos vel : Int) (hv : isShort vel)
    (hq : pos + vel < r) (hnr : 2 * r - (pos + vel) ≥ dim - r)
    (h1 : -32768 ≤ pos + vel) (h2 : 2 * r - (pos + vel) ≤ 32767)
    (h3 : -32768 ≤ pos + vel + 2 * (dim - 2 * r)) :
    bounce dim r pos vel = (pos + vel + 2 * (dim - 2 * r), vel) := by
  have e1 : toShort (pos + vel) = pos + vel := toShort_eq_self ⟨by omega, by omega⟩
  have e2 : toShort (2 * r - (pos + vel)) = 2 * r - (pos + vel) :=
    toShort_eq_self ⟨by omega, by omega⟩
  have e3 : toShort (2 * (dim - r) - (2 * r - (pos + vel))) =
      pos + vel + 2 * (dim - 2 * r) := by
    rw [toShort_eq_self ⟨by omega, by omega⟩]; omega
  unfold bounce
  simp only [e1, hq, if_true, e2, hnr, e3, toShort_neg_neg hv]

/-- C11: compounded reflection.  The left and right checks are both
evaluated in one step: for every circle with 16-bit cells and
`q = position.x + velocity.x`, if `q < radius` and
`2 * radius - q ≥ width - radius`, and `q`, `2 * radius - q` and
`q + 2 * (width - 2 * radius)` stay in the 16-bit range, then after one
`updateCircles` call `velocity.x` equals its value before the step and
`position.x = q + 2 * (width - 2 * radius)`.  Such states exist with
`width > 2 * radius`: radius 49, width 99, `position.x = 49`,
`velocity.x = -10`. -/
theorem compounded_reflection (s : State) (i : Nat) (r : Int) (p v : Coordinate2D)
    (hs : WellTyped s) (hc : hasCircle s i r p v)
    (hq : p.x + v.x < r) (hnr : 2 * r - (p.x + v.x) ≥ s.canvasWidth - r)
    (h1 : -32768 ≤ p.x + v.x) (h2 : 2 * r - (p.x + v.x) ≤ 32767)
    (h3 : -32768 ≤ p.x + v.x + 2 * (s.canvasWidth - 2 * r)) :
    (∃ p' v', (updateCircles s).position[i]? = some p' ∧
      (updateCircles s).velocity[i]? = some v' ∧
      p'.x = p.x + v.x + 2 * (s.canvasWidth - 2 * r) ∧ v'.x = v.x) ∧
    (WellTyped (uniform 99 200 49 ⟨49, 60⟩ ⟨-10, 0⟩) ∧
      hasCircle (uniform 99 200 49 ⟨49, 60⟩ ⟨-10, 0⟩) 0 49 ⟨49, 60⟩ ⟨-10, 0⟩ ∧
      (99 : Int) > 2 * 49 ∧ (49 : Int) + -10 < 49 ∧ (2 : Int) * 49 - (49 + -10) ≥ 99 - 49 ∧
      (-32768 : Int) ≤ 49 + -10 ∧ (2 : Int) * 49 - (49 + -10) ≤ 32767 ∧
      (-32768 : Int) ≤ 49 + -10 + 2 * (99 - 2 * 49)) := by
  obtain ⟨-, -, -, -, -, hvx, -⟩ := hs.circle hc
  obtain ⟨p', v', g1, g2, hx, -⟩ := updateCircles_x hc
  rw [bounce_both s.canvasWidth r p.x v.x hvx hq hnr h1 h2 h3] at hx
  exact ⟨⟨p', v', g1, g2, congrArg Prod.fst hx, congrArg Prod.snd hx⟩,
    (wellTyped_uniform _ _ _ _ _ (by decide) (by decide) (by decide) (by decide) (by decide)), (hasCircle_uniform _ _ _ _ _ 0 (by decide)), by decide, by decide, by decide, by decide, by decide, by decide⟩

/-- Instance of C11: radius 49 at `(49, 60)` with velocity `(-10, 0)` on a
99 by 200 canvas ends at `x = 39 + 2 = 41` with velocity `-10`. -/
theorem compounded_reflection_witness :
    WellTyped (uniform 99 200 49 ⟨49, 60⟩ ⟨-10, 0⟩) ∧
      hasCircle (uniform 99 200 49 ⟨49, 60⟩ ⟨-10, 0⟩) 0 49 ⟨49, 60⟩ ⟨-10, 0⟩ ∧
      ∃ p' v', (updateCircles (uniform 99 200 49 ⟨49, 60⟩ ⟨-10, 0⟩)).position[0]? = some p' ∧
        (updateCircles (uniform 99 200 49 ⟨49, 60⟩ ⟨-10, 0⟩)).velocity[0]? = some v' ∧
        p'.x = 49 + -10 + 2 * (99 - 2 * 49) ∧ v'.x = -10 :=
  ⟨(wellTyped_uniform _ _ _ _ _ (by decide) (by decide) (by decide) (by decide) (by decide)), (hasCircle_uniform _ _ _ _ _ 0 (by decide)),
    (compounded_reflection (uniform 99 200 49 ⟨49, 60⟩ ⟨-10, 0⟩) 0 49 ⟨49, 60⟩ ⟨-10, 0⟩ (wellTyped_uniform _ _ _ _ _ (by decide) (by decide) (by decide) (by decide) (by decide)) (hasCircle_uniform _ _ _ _ _ 0 (by decide))
      (by decide) (by decide) (by decide) (by decide) (by decide)).1⟩

/-! ## Independence of the circles -/

theorem updateCirclesBody_comm (s : State) (i j : Nat) :
    updateCirclesBody (updateCirclesBody s i) j = updateCirclesBody (updateCirclesBody s j) i := by
  by_cases hij : i = j
  · rw [hij]
  · have hji : j ≠ i := fun e => hij e.symm
    simp only [updateCirclesBody, List.getD_eq_getElem?_getD, List.getElem?_set_ne hij,
      List.getElem?_set_ne hji]
    rw [List.set_comm _ _ _ hij, List.set_comm _ _ s.velocity hij]

/-- C12: circles do not interact.  For two states that agree on
`canvasWidth`, `canvasHeight` and on circle `i`'s radius, position and
velocity, circle `i`'s position and velocity after one `updateCircles` call
are the same in both, namely what the loop body computes from the circle's
own cells; and running the loop body over the indices `0 .. NUM_CIRCLES - 1`
in any order gives the same state as `updateCircles`. -/
theorem circles_do_not_interact (s₁ s₂ : State) (i : Nat) (r : Int) (p v : Coordinate2D)
    (h₁ : hasCircle s₁ i r p v) (h₂ : hasCircle s₂ i r p v)
    (hw : s₁.canvasWidth = s₂.canvasWidth) (hh : s₁.canvasHeight = s₂.canvasHeight) :
    ((updateCircles s₁).position[i]? = (updateCircles s₂).position[i]? ∧
      (updateCircles s₁).velocity[i]? = (updateCircles s₂).velocity[i]? ∧
      (updateCircles s₁).position[i]? =
        some (updateCircle s₁.canvasWidth s₁.canvasHeight r p v).1 ∧
      (updateCircles s₁).velocity[i]? =
        some (updateCircle s₁.canvasWidth s₁.canvasHeight r p v).2) ∧
    (∀ order : List Nat, order.Perm (List.range NUM_CIRCLES) →
      order.foldl updateCirclesBody s₁ = updateCircles s₁ ∧
      order.foldl updateCirclesBody s₂ = updateCircles s₂) := by
  obtain ⟨-, -, a1, a2⟩ := hasCircle_updateCircles h₁
  obtain ⟨-, -, b1, b2⟩ := hasCircle_updateCircles h₂
  rw [← hw, ← hh] at b1 b2
  refine ⟨⟨a1.trans b1.symm, a2.trans b2.symm, a1, a2⟩, fun order hperm => ⟨?_, ?_⟩⟩
  · exact hperm.foldl_eq' (fun x _ y _ z => updateCirclesBody_comm z x y) s₁
  · exact hperm.foldl_eq' (fun x _ y _ z => updateCirclesBody_comm z x y) s₂

/-- Instance of C12: the state of copies of radius 10 at `(12, 50)` with
velocity `(-7, 3)` on a 200 by 200 canvas, and the same state after circle 1
alone has been moved; circle 0 is the same after one call in both. -/
theorem circles_do_not_interact_witness :
    hasCircle (uniform 200 200 10 ⟨12, 50⟩ ⟨-7, 3⟩) 0 10 ⟨12, 50⟩ ⟨-7, 3⟩ ∧
      hasCircle (updateCirclesBody (uniform 200 200 10 ⟨12, 50⟩ ⟨-7, 3⟩) 1) 0 10 ⟨12, 50⟩
        ⟨-7, 3⟩ ∧
      (updateCircles (uniform 200 200 10 ⟨12, 50⟩ ⟨-7, 3⟩)).position[0]? =
        (updateCircles (updateCirclesBody (uniform 200 200 10 ⟨12, 50⟩ ⟨-7, 3⟩) 1)).position[0]? ∧
      (updateCircles (uniform 200 200 10 ⟨12, 50⟩ ⟨-7, 3⟩)).velocity[0]? =
        (updateCircles (updateCirclesBody (uniform 200 200 10 ⟨12, 50⟩ ⟨-7, 3⟩) 1)).velocity[0]? := by
  have hA := hasCircle_uniform 200 200 10 ⟨12, 50⟩ ⟨-7, 3⟩ 0 (by decide)
  have hB : hasCircle (updateCirclesBody (uniform 200 200 10 ⟨12, 50⟩ ⟨-7, 3⟩) 1) 0 10
      ⟨12, 50⟩ ⟨-7, 3⟩ := by
    obtain ⟨h0, hr, hp, hv⟩ := hA
    refine ⟨h0, hr, ?_, ?_⟩
    · simpa [updateCirclesBody] using hp
    · simpa [updateCirclesBody] using hv
  obtain ⟨⟨c1, c2, -, -⟩, -⟩ := circles_do_not_interact
    (uniform 200 200 10 ⟨12, 50⟩ ⟨-7, 3⟩)
    (updateCirclesBody (uniform 200 200 10 ⟨12, 50⟩ ⟨-7, 3⟩) 1) 0 10 ⟨12, 50⟩ ⟨-7, 3⟩ hA hB
    rfl rfl
  exact ⟨hA, hB, c1, c2⟩

/-! ## Symmetry of the two axes -/

theorem updateCircle_swap (w h r : Int) (p v : Coordinate2D) :
    updateCircle h w r p.swap v.swap =
      ((updateCircle w h r p v).1.swap, (updateCircle w h r p v).2.swap) := by
  simp [updateCircle_eq_bounce, Coordinate2D.swap]

theorem getD_map_swap (l : List Coordinate2D) (i : Nat) :
    (l.map Coordinate2D.swap).getD i default = (l.getD i default).swap := by
  have hd : (default : Coordinate2D) = Coordinate2D.swap default := rfl
  conv_lhs => rw [hd]
  exact List.getD_map l default Coordinate2D.swap

theorem updateCirclesBody_swapAxes (s : State) (i : Nat) :
    updateCirclesBody (swapAxes s) i = swapAxes (updateCirclesBody s i) := by
  simp only [updateCirclesBody, swapAxes, getD_map_swap, updateCircle_swap, List.map_set]

theorem updateLoop_swapAxes (n : Nat) (s : State) :
    updateLoop n (swapAxes s) = swapAxes (updateLoop n s) := by
  induction n with
  | zero => rfl
  | succ n ih => rw [updateLoop_succ, updateLoop_succ, ih, updateCirclesBody_swapAxes]

/-- C13: axis symmetry.  For every state, exchanging x with y in every
position and velocity and exchanging `canvasWidth` with `canvasHeight`,
then calling `updateCircles`, gives the same state as calling
`updateCircles` first and exchanging afterwards: the top and bottom rule
is the left and right rule with the height in place of the width, and the
two axes do not influence each other. -/
theorem axis_symmetry (s : State) :
    updateCircles (swapAxes s) = swapAxes (updateCircles s) ∧
      ∀ (w h r : Int) (p v : Coordinate2D),
        ((updateCircle w h r p v).1.y, (updateCircle w h r p v).2.y) =
            ((updateCircle h w r p.swap v.swap).1.x, (updateCircle h w r p.swap v.swap).2.x) ∧
          ((updateCircle w h r p v).1.x, (updateCircle w h r p v).2.x) =
            bounce w r p.x v.x ∧
          ((updateCircle w h r p v).1.y, (updateCircle w h r p v).2.y) =
            bounce h r p.y v.y := by
  refine ⟨updateLoop_swapAxes NUM_CIRCLES s, fun w h r p v => ?_⟩
  rw [updateCircle_swap]
  simp [updateCircle_eq_bounce, Coordinate2D.swap]

/-! ## The stored canvas size -/

/-- C14 (amended): stored canvas size.  For every `width` and `height` in
`[1, 32767]` passed to `initCircles`, the `canvasWidth` and `canvasHeight`
of the state it returns, and of that state after any number of
`updateCircles` calls, equal the width and height passed; `initCircles`
returns whenever no circle's diameter equals the width or the height. -/
theorem stored_canvas_size (rand : Nat → Int) (s : State) (width height : Int)
    (hw : 0 < width ∧ width ≤ 32767) (hh : 0 < height ∧ height ≤ 32767) :
    (∀ s', initCircles rand s width height = some s' →
      s'.canvasWidth = width ∧ s'.canvasHeight = height ∧
      ∀ n : Nat, (updateCircles^[n] s').canvasWidth = width ∧
        (updateCircles^[n] s').canvasHeight = height) ∧
    (noZeroDivisor rand width height NUM_CIRCLES →
      ∃ s', initCircles rand s width height = some s') := by
  have ew : toShort width = width := toShort_eq_self ⟨by omega, hw.2⟩
  have eh : toShort height = height := toShort_eq_self ⟨by omega, hh.2⟩
  refine ⟨fun s' hs' => ?_, fun hz => ?_⟩
  · obtain ⟨c1, c2, -, -, -⟩ := initCircles_sound rand s width height s' hs'
    rw [ew] at c1
    rw [eh] at c2
    refine ⟨c1, c2, fun n => ?_⟩
    obtain ⟨-, -, g3, g4, -, -⟩ := iterate_updateCircles_frame n s'
    exact ⟨g3.trans c1, g4.trans c2⟩
  · exact initCircles_total rand s width height (by rw [ew, eh]; exact hz)

/-- Instance of C14 (amended): `initCircles(640, 480)` on the
zero-initialised arrays with the sample sequence of `rand()` results
returns a state with `canvasWidth = 640` and `canvasHeight = 480`. -/
theorem stored_canvas_size_witness :
    ((0 : Int) < 640 ∧ (640 : Int) ≤ 32767) ∧ ((0 : Int) < 480 ∧ (480 : Int) ≤ 32767) ∧
      ∃ s', initCircles sampleRand zeroState 640 480 = some s' ∧
        s'.canvasWidth = 640 ∧ s'.canvasHeight = 480 := by
  have h := stored_canvas_size sampleRand zeroState 640 480 (by decide) (by decide)
  obtain ⟨s', hs'⟩ := h.2
    (noZeroDivisor_of_large _ sampleRand_nonneg _ _ (by decide) (by decide) _)
  obtain ⟨c1, c2, -⟩ := h.1 s' hs'
  exact ⟨by decide, by decide, s', hs', c1, c2⟩

/-- C14 as stated fails: `initCircles(40000, 480)` on the zero-initialised
arrays with the sample sequence of `rand()` results returns, and the stored
`canvasWidth` is `(short)40000 = -25536`, not the positive width passed. -/
theorem stored_canvas_size_fails_as_stated :
    (0 : Int) < 40000 ∧ (0 : Int) < 480 ∧
      ∃ s', initCircles sampleRand zeroState 40000 480 = some s' ∧
        s'.canvasWidth = -25536 ∧ s'.canvasHeight = 480 ∧ s'.canvasWidth ≠ 40000 := by
  have hz : noZeroDivisor sampleRand (toShort 40000) (toShort 480) NUM_CIRCLES := by
    intro i _
    have hR := initRadius_range sampleRand sampleRand_nonneg (8 * i)
    have e1 : toShort 40000 = -25536 := by decide
    have e2 : toShort 480 = 480 := by decide
    rw [e1, e2]
    constructor <;> omega
  obtain ⟨s', hs'⟩ := initCircles_total sampleRand zeroState 40000 480 hz
  obtain ⟨c1, c2, -, -, -⟩ := initCircles_sound sampleRand zeroState 40000 480 s' hs'
  have e1 : toShort 40000 = -25536 := by decide
  have e2 : toShort 480 = 480 := by decide
  rw [e1] at c1
  rw [e2] at c2
  exact ⟨by decide, by decide, s', hs', c1, c2, by rw [c1]; decide⟩

/-! ## Containment when the speed fits in the free span -/

theorem bounce_fits (dim r pos vel : Int) (hr : 0 ≤ r)
    (hv : -(dim - 2 * r) ≤ vel ∧ vel ≤ dim - 2 * r) (hp : r ≤ pos ∧ pos ≤ dim - r)
    (ho : dim - r + vel ≤ 32767 ∧ dim - r - vel ≤ 32767) :
    (-(dim - 2 * r) ≤ (bounce dim r pos vel).2 ∧ (bounce dim r pos vel).2 ≤ dim - 2 * r) ∧
      (r ≤ (bounce dim r pos vel).1 ∧ (bounce dim r pos vel).1 ≤ dim - r) ∧
      (dim - r + (bounce dim r pos vel).2 ≤ 32767 ∧
        dim - r - (bounce dim r pos vel).2 ≤ 32767) := by
  have e1 : toShort (pos + vel) = pos + vel := toShort_eq_self ⟨by omega, by omega⟩
  have e3 : toShort (-vel) = -vel := toShort_eq_self ⟨by omega, by omega⟩
  have e4 : toShort (- -vel) = vel := by
    rw [neg_neg]; exact toShort_eq_self ⟨by omega, by omega⟩
  unfold bounce
  simp only [e1]
  by_cases h1 : pos + vel < r
  · have e2 : toShort (2 * r - (pos + vel)) = 2 * r - (pos + vel) :=
      toShort_eq_self ⟨by omega, by omega⟩
    simp only [h1, if_true, e2, e3]
    by_cases h2 : 2 * r - (pos + vel) ≥ dim - r
    · have e5 : toShort (2 * (dim - r) - (2 * r - (pos + vel))) =
          2 * (dim - r) - (2 * r - (pos + vel)) := toShort_eq_self ⟨by omega, by omega⟩
      simp only [h2, if_true, e4, e5]
      omega
    · simp only [h2, if_false]
      omega
  · simp only [h1, if_false]
    by_cases h2 : pos + vel ≥ dim - r
    · have e5 : toShort (2 * (dim - r) - (pos + vel)) = 2 * (dim - r) - (pos + vel) :=
        toShort_eq_self ⟨by omega, by omega⟩
      simp only [h2, if_true, e3, e5]
      omega
    · simp only [h2, if_false]
      omega

theorem updatePair_fits (w h r : Int) (pv : Coordinate2D × Coordinate2D)
    (hf : fitsFreeSpan w h r pv.1 pv.2) (n : Nat) :
    fitsFreeSpan w h r ((updatePair w h r)^[n] pv).1 ((updatePair w h r)^[n] pv).2 := by
  induction n with
  | zero => exact hf
  | succ n ih =>
    rw [Function.iterate_succ_apply']
    obtain ⟨hr, hw, hh, vx, vy, ⟨cx, cy⟩, ox, oy⟩ := ih
    obtain ⟨a1, a2, a3⟩ := bounce_fits w r _ _ hr vx cx ox
    obtain ⟨b1, b2, b3⟩ := bounce_fits h r _ _ hr vy cy oy
    simp only [updatePair, updateCircle_eq_bounce, fitsFreeSpan, contained]
    exact ⟨hr, hw, hh, a1, b1, ⟨a2, b2⟩, a3, b3⟩

/-- C15 (amended): containment is preserved when the speed fits in the free
span.  For every circle and canvas with `0 ≤ radius`, width and height at
most 32767, `|velocity.x| ≤ width - 2 * radius`,
`|velocity.y| ≤ height - 2 * radius`, `radius ≤ position.x ≤ width - radius`,
`radius ≤ position.y ≤ height - radius`, and in addition
`width - radius + |velocity.x| ≤ 32767` and
`height - radius + |velocity.y| ≤ 32767` (position plus velocity cannot
leave the 16-bit range), all these bounds hold again after one
`updateCircles` call, hence after any number of calls; in particular this
covers every circle of a state returned by `initCircles` with non-negative
`rand()` results when `108 ≤ width ≤ 32767` and `108 ≤ height ≤ 32767`. -/
theorem containment_within_free_span (s : State) (i : Nat) (r : Int) (p v : Coordinate2D)
    (hc : hasCircle s i r p v) (hf : fitsFreeSpan s.canvasWidth s.canvasHeight r p v) :
    (∀ n : Nat, ∃ p' v', hasCircle (updateCircles^[n] s) i r p' v' ∧
      fitsFreeSpan (updateCircles^[n] s).canvasWidth (updateCircles^[n] s).canvasHeight
        r p' v') ∧
    (∀ (rand : Nat → Int) (s₀ s' : State) (width height : Int), (∀ k, 0 ≤ rand k) →
      hasDeclaredSizes s₀ → (108 ≤ width ∧ width ≤ 32767) → (108 ≤ height ∧ height ≤ 32767) →
      initCircles rand s₀ width height = some s' →
      ∀ j, j < NUM_CIRCLES → ∃ r₀ p₀ v₀, hasCircle s' j r₀ p₀ v₀ ∧
        fitsFreeSpan s'.canvasWidth s'.canvasHeight r₀ p₀ v₀) := by
  refine ⟨fun n => ?_, fun rand s₀ s' width height hrand hs₀ hw hh hs' j hj => ?_⟩
  · obtain ⟨-, -, g3, g4, -, -⟩ := iterate_updateCircles_frame n s
    refine ⟨_, _, hasCircle_iterate hc n, ?_⟩
    rw [g3, g4]
    exact updatePair_fits s.canvasWidth s.canvasHeight r (p, v) hf n
  · have sw : isShort width := ⟨by omega, hw.2⟩
    have sh : isShort height := ⟨by omega, hh.2⟩
    obtain ⟨c1, c2, -, -, hcell⟩ := initCircles_sound rand s₀ width height s' hs'
    rw [toShort_eq_self sw] at c1
    rw [toShort_eq_self sh] at c2
    obtain ⟨-, l2, l3, l4⟩ := hs₀
    obtain ⟨d1, -, d3, d4⟩ := hcell j hj
    rw [toShort_eq_self sw, toShort_eq_self sh] at d3
    have hR := initRadius_range rand hrand (8 * j)
    have hV := initVelocity_range rand hrand (8 * j)
    have hP := initPosition_range rand hrand (8 * j) width height sw sh (by omega) (by omega)
    refine ⟨_, _, _, ⟨hj, d1 (by omega), d3 (by omega), d4 (by omega)⟩, ?_⟩
    rw [c1, c2]
    unfold fitsFreeSpan contained
    omega

/-- Instance of C15 (amended): radius 10 at `(100, 470)` with velocity
`(-10, 9)` on a 640 by 480 canvas. -/
theorem containment_within_free_span_witness :
    hasCircle (uniform 640 480 10 ⟨100, 470⟩ ⟨-10, 9⟩) 0 10 ⟨100, 470⟩ ⟨-10, 9⟩ ∧
      fitsFreeSpan 640 480 10 ⟨100, 470⟩ ⟨-10, 9⟩ ∧
      ∀ n : Nat, ∃ p' v',
        hasCircle (updateCircles^[n] (uniform 640 480 10 ⟨100, 470⟩ ⟨-10, 9⟩)) 0 10 p' v' ∧
        fitsFreeSpan (updateCircles^[n] (uniform 640 480 10 ⟨100, 470⟩ ⟨-10, 9⟩)).canvasWidth
          (updateCircles^[n] (uniform 640 480 10 ⟨100, 470⟩ ⟨-10, 9⟩)).canvasHeight 10 p' v' :=
  ⟨(hasCircle_uniform _ _ _ _ _ 0 (by decide)), by decide,
    (containment_within_free_span (uniform 640 480 10 ⟨100, 470⟩ ⟨-10, 9⟩) 0 10 ⟨100, 470⟩
      ⟨-10, 9⟩ (hasCircle_uniform _ _ _ _ _ 0 (by decide)) (by decide)).1⟩

/-- C15 as stated fails: radius 10 at `(32757, 100)` with velocity `(20, 0)`
on a 32767 by 32767 canvas satisfies `0 ≤ radius`, width and height at most
32767, `|velocity.x| ≤ width - 2 * radius`, `|velocity.y| ≤ height - 2 * radius`
and the four position bounds, but `32757 + 20` wraps and one call leaves
the circle at `x = -32757 < radius`. -/
theorem containment_within_free_span_fails_as_stated :
    WellTyped (uniform 32767 32767 10 ⟨32757, 100⟩ ⟨20, 0⟩) ∧
      hasCircle (uniform 32767 32767 10 ⟨32757, 100⟩ ⟨20, 0⟩) 0 10 ⟨32757, 100⟩ ⟨20, 0⟩ ∧
      (0 : Int) ≤ 10 ∧ (32767 : Int) ≤ 32767 ∧
      |(20 : Int)| ≤ 32767 - 2 * 10 ∧ |(0 : Int)| ≤ 32767 - 2 * 10 ∧
      contained 32767 32767 10 ⟨32757, 100⟩ ∧
      (updateCircles (uniform 32767 32767 10 ⟨32757, 100⟩ ⟨20, 0⟩)).position[0]? =
        some ⟨-32757, 100⟩ ∧
      ¬ contained 32767 32767 10 ⟨-32757, 100⟩ := by
  have h := hasCircle_updateCircles
    (hasCircle_uniform 32767 32767 10 ⟨32757, 100⟩ ⟨20, 0⟩ 0 (by decide))
  have e : (updateCircle 32767 32767 10 ⟨32757, 100⟩ ⟨20, 0⟩).1 = ⟨-32757, 100⟩ := by decide
  refine ⟨(wellTyped_uniform _ _ _ _ _ (by decide) (by decide) (by decide) (by decide) (by decide)), (hasCircle_uniform _ _ _ _ _ 0 (by decide)), by decide, by decide, by decide, by decide, by decide, ?_, by decide⟩
  rw [h.2.2.1]; exact congrArg some e

/-! ## Conservation of the speed -/

theorem bounce_sign (dim r pos vel : Int) (hv : -32767 ≤ vel ∧ vel ≤ 32767) :
    (bounce dim r pos vel).2 = vel ∨ (bounce dim r pos vel).2 = -vel := by
  have e3 : toShort (-vel) = -vel := toShort_eq_self ⟨by omega, by omega⟩
  have e4 : toShort vel = vel := toShort_eq_self ⟨by omega, by omega⟩
  unfold bounce
  dsimp only
  split_ifs <;> simp [e3, e4]

theorem updatePair_sign (w h r : Int) (p v : Coordinate2D)
    (hvx : -32767 ≤ v.x ∧ v.x ≤ 32767) (hvy : -32767 ≤ v.y ∧ v.y ≤ 32767) (n : Nat) :
    (((updatePair w h r)^[n] (p, v)).2.x = v.x ∨ ((updatePair w h r)^[n] (p, v)).2.x = -v.x) ∧
      (((updatePair w h r)^[n] (p, v)).2.y = v.y ∨
        ((updatePair w h r)^[n] (p, v)).2.y = -v.y) := by
  induction n with
  | zero => exact ⟨Or.inl rfl, Or.inl rfl⟩
  | succ n ih =>
    rw [Function.iterate_succ_apply']
    obtain ⟨ix, iy⟩ := ih
    have bx := bounce_sign w r ((updatePair w h r)^[n] (p, v)).1.x
      ((updatePair w h r)^[n] (p, v)).2.x (by omega)
    have by' := bounce_sign h r ((updatePair w h r)^[n] (p, v)).1.y
      ((updatePair w h r)^[n] (p, v)).2.y (by omega)
    simp only [updatePair, updateCircle_eq_bounce]
    constructor <;> omega

/-- C16: speed is conserved.  For every circle with velocity components in
`[-32767, 32767]` and every canvas, after one `updateCircles` call each
velocity component is equal to its value before the step or to its
negation, and so it is after any number `n` of calls: `|velocity.x|` and
`|velocity.y|` are unchanged. -/
theorem speed_conserved (s : State) (i : Nat) (r : Int) (p v : Coordinate2D)
    (hc : hasCircle s i r p v) (hvx : -32767 ≤ v.x ∧ v.x ≤ 32767)
    (hvy : -32767 ≤ v.y ∧ v.y ≤ 32767) :
    (∃ v', (updateCircles s).velocity[i]? = some v' ∧
      (v'.x = v.x ∨ v'.x = -v.x) ∧ (v'.y = v.y ∨ v'.y = -v.y)) ∧
    (∀ n : Nat, ∃ v', (updateCircles^[n] s).velocity[i]? = some v' ∧
      (v'.x = v.x ∨ v'.x = -v.x) ∧ (v'.y = v.y ∨ v'.y = -v.y) ∧
      |v'.x| = |v.x| ∧ |v'.y| = |v.y|) := by
  have key : ∀ n : Nat, ∃ v', (updateCircles^[n] s).velocity[i]? = some v' ∧
      (v'.x = v.x ∨ v'.x = -v.x) ∧ (v'.y = v.y ∨ v'.y = -v.y) := fun n =>
    ⟨_, (hasCircle_iterate hc n).2.2.2,
      updatePair_sign s.canvasWidth s.canvasHeight r p v hvx hvy n⟩
  refine ⟨by simpa using key 1, fun n => ?_⟩
  obtain ⟨v', h1, hx, hy⟩ := key n
  refine ⟨v', h1, hx, hy, ?_, ?_⟩
  · rcases hx with e | e <;> simp [e]
  · rcases hy with e | e <;> simp [e]

/-- Instance of C16: radius 10 at `(12, 50)` with velocity `(-7, 32767)` on a
200 by 200 canvas. -/
theorem speed_conserved_witness :
    hasCircle (uniform 200 200 10 ⟨12, 50⟩ ⟨-7, 32767⟩) 0 10 ⟨12, 50⟩ ⟨-7, 32767⟩ ∧
      ((-32767 : Int) ≤ -7 ∧ (-7 : Int) ≤ 32767) ∧
      ((-32767 : Int) ≤ 32767 ∧ (32767 : Int) ≤ 32767) ∧
      ∀ n : Nat, ∃ v',
        (updateCircles^[n] (uniform 200 200 10 ⟨12, 50⟩ ⟨-7, 32767⟩)).velocity[0]? = some v' ∧
        (v'.x = -7 ∨ v'.x = - -7) ∧ (v'.y = 32767 ∨ v'.y = -32767) ∧
        |v'.x| = |(-7 : Int)| ∧ |v'.y| = |(32767 : Int)| :=
  ⟨(hasCircle_uniform _ _ _ _ _ 0 (by decide)), by decide, by decide,
    (speed_conserved (uniform 200 200 10 ⟨12, 50⟩ ⟨-7, 32767⟩) 0 10 ⟨12, 50⟩ ⟨-7, 32767⟩ (hasCircle_uniform _ _ _ _ _ 0 (by decide))
      (by decide) (by decide)).2⟩

end Canvas
